import Mathlib

/-!
# Verification of the `timp` stdimg engine specification

Shallow embedding of the pure image-processing engine in `pkg/stdimg`
(Go) and proofs about the specified properties.

Modelling conventions:
* a Go `uint8` channel value is a `Nat` (well-formed images keep it `≤ 255`);
* a Go `float64` is a real number (`ℝ`); IEEE rounding, `NaN` and `Inf`
  are outside the model;
* `uint8(f)` conversion of a clamped non-negative float is `Nat.floor`
  (Go converts by truncation toward zero, which agrees with `floor` on
  the clamped range `[0,255]`);
* raster images appear in two faithful views:
  - `NBuf`, the flat byte buffer with Go's `PixOffset` index arithmetic
    (used where the claims are about buffer indexing), and
  - `NImg`, a width/height pair with a pixel-valued function of the
    coordinates (used where claims are about per-pixel values); Go's
    loops writing `dst.Pix[dst.PixOffset(x',y')] = f(src at (x,y))` are
    rendered as the corresponding inverse coordinate mapping;
* engine buffers are zero-origin (`Rect.Min = (0,0)`), which is how the
  engine allocates and indexes them (`ToNRGBA`, `image.NewNRGBA`).
-/

set_option autoImplicit false

namespace Timp

/-- One non-premultiplied RGBA pixel (8-bit channels as `Nat`). -/
structure Px where
  r : ℕ
  g : ℕ
  b : ℕ
  a : ℕ
deriving DecidableEq, Repr

/-- Grid view of an NRGBA image: width, height and the pixel at each
(zero-origin) coordinate.  The function is total; only values at
`x < w`, `y < h` are meaningful. -/
structure NImg where
  w : ℕ
  h : ℕ
  pix : ℕ → ℕ → Px

/-- Pixel-for-pixel equality of two images on their (common) domain. -/
def ExtEq (p q : NImg) : Prop :=
  p.w = q.w ∧ p.h = q.h ∧ ∀ x y, x < p.w → y < p.h → p.pix x y = q.pix x y

/-- All channel bytes in range (invariant of real NRGBA data). -/
def Wf (p : NImg) : Prop :=
  ∀ x y, (p.pix x y).r ≤ 255 ∧ (p.pix x y).g ≤ 255 ∧
    (p.pix x y).b ≤ 255 ∧ (p.pix x y).a ≤ 255

/-- `clampFloatToUint8` (pkg/stdimg, resample file): clamp a float into
`[0,255]`. -/
noncomputable def clampFloatToUint8 (v : ℝ) : ℝ :=
  if v < 0 then 0 else if v > 255 then 255 else v

/-- Go's `uint8(f)` on the result of `clampFloatToUint8` (truncation
toward zero on `[0,255]` is `Nat.floor`). -/
noncomputable def floatToByte (v : ℝ) : ℕ := ⌊clampFloatToUint8 v⌋₊

/-- `clampInt` (pkg/stdimg/color.go): clamp `v` to `[lo,hi]`. -/
def clampInt (v lo hi : ℤ) : ℤ :=
  if v < lo then lo else if v > hi then hi else v

/-- `CloneNRGBA` (pkg/stdimg/color.go): fresh buffer with equal
contents; in the pure grid view it is a content-preserving copy. -/
def CloneNRGBA (p : NImg) : NImg := ⟨p.w, p.h, p.pix⟩

/-! ## Flat byte-buffer view and `samplePixelClamped` (claim C5)

`samplePixelClamped` is specified to be safe "regardless of
caller-supplied coordinates", so this part of the model keeps Go's raw
index arithmetic: a flat byte list, `PixOffset`, and an access that is
`none` exactly when Go would panic with an out-of-range index. -/

/-- Flat NRGBA buffer: dimensions plus channel-interleaved bytes
(`Stride = 4*w`, zero-origin). -/
structure NBuf where
  w : ℕ
  h : ℕ
  pix : List ℕ

/-- `(*image.NRGBA).PixOffset(x,y)` for a zero-origin buffer:
`y*Stride + x*4`. -/
def pixOffset (b : NBuf) (x y : ℤ) : ℤ :=
  y * (4 * (b.w : ℤ)) + x * 4

/-- A single byte read `Pix[i]`: `none` iff the index is out of range
(where Go panics). -/
def goByte (l : List ℕ) (i : ℤ) : Option ℕ :=
  if h : 0 ≤ i ∧ i.toNat < l.length then some (l.get ⟨i.toNat, h.2⟩)
  else none

/-- `samplePixelClamped` (pkg/stdimg/color.go): clamp the coordinate to
`[Min.X, Max.X-1] × [Min.Y, Max.Y-1]` and read the four channel bytes at
the computed offset. -/
def samplePixelClamped (img : NBuf) (x y : ℤ) : Option Px :=
  let cx := clampInt x 0 ((img.w : ℤ) - 1)
  let cy := clampInt y 0 ((img.h : ℤ) - 1)
  let i := pixOffset img cx cy
  match goByte img.pix i, goByte img.pix (i + 1),
      goByte img.pix (i + 2), goByte img.pix (i + 3) with
  | some r, some g, some b, some a => some ⟨r, g, b, a⟩
  | _, _, _, _ => none

/-- The pixel stored at in-range coordinate `(x,y)` of a flat buffer
(bytes read with a default, used only to state where the sample lands). -/
def pixelAtB (img : NBuf) (x y : ℕ) : Px :=
  let i := 4 * (y * img.w + x)
  ⟨img.pix.getD i 0, img.pix.getD (i + 1) 0,
   img.pix.getD (i + 2) 0, img.pix.getD (i + 3) 0⟩


/-! ## EXIF orientation transforms (claim C6)

The helpers below are from the `AutoOrient` source file.  Each Go loop
writes `dst(at mapped coordinate) := src(x,y)`; the grid view states the
same assignment through the inverse coordinate map. -/

/-- `ToNRGBA` on an already-NRGBA image (pkg/stdimg/color.go): a fresh
buffer with identical pixel content. -/
def ToNRGBA (p : NImg) : NImg := ⟨p.w, p.h, p.pix⟩

/-- `FlipNRGBA`: vertical flip; Go writes `dst(x, h-1-y) := src(x, y)`. -/
def FlipNRGBA (p : NImg) : NImg :=
  ⟨p.w, p.h, fun x y => p.pix x (p.h - 1 - y)⟩

/-- `FlopNRGBA`: horizontal flip; Go writes `dst(w-1-x, y) := src(x, y)`. -/
def FlopNRGBA (p : NImg) : NImg :=
  ⟨p.w, p.h, fun x y => p.pix (p.w - 1 - x) y⟩

/-- `Rotate180NRGBA`: Go writes `dst(w-1-x, h-1-y) := src(x, y)`. -/
def Rotate180NRGBA (p : NImg) : NImg :=
  ⟨p.w, p.h, fun x y => p.pix (p.w - 1 - x) (p.h - 1 - y)⟩

/-- `Rotate90CWNRGBA`: output is `h × w`; Go writes
`dst(h-1-y, x) := src(x, y)`. -/
def Rotate90CWNRGBA (p : NImg) : NImg :=
  ⟨p.h, p.w, fun x y => p.pix y (p.h - 1 - x)⟩

/-- `Rotate90CCWNRGBA`: output is `h × w`; Go writes
`dst(y, w-1-x) := src(x, y)`. -/
def Rotate90CCWNRGBA (p : NImg) : NImg :=
  ⟨p.h, p.w, fun x y => p.pix (p.w - 1 - y) x⟩

/-- `AutoOrient` (stdimg): dispatch on the EXIF orientation code 1..8;
codes outside 2..8 return the image unchanged. -/
def AutoOrient (img : NImg) (orientation : ℤ) : NImg :=
  if orientation ≤ 1 ∨ orientation > 8 then img
  else if orientation = 2 then FlopNRGBA (ToNRGBA img)
  else if orientation = 3 then Rotate180NRGBA (ToNRGBA img)
  else if orientation = 4 then FlipNRGBA (ToNRGBA img)
  else if orientation = 5 then
    FlopNRGBA (ToNRGBA (Rotate90CWNRGBA (ToNRGBA img)))
  else if orientation = 6 then Rotate90CWNRGBA (ToNRGBA img)
  else if orientation = 7 then
    FlopNRGBA (ToNRGBA (Rotate90CCWNRGBA (ToNRGBA img)))
  else if orientation = 8 then Rotate90CCWNRGBA (ToNRGBA img)
  else img

/-- Modelled from the spec's words (refinement target of C6): mirror the
rows top-to-bottom. -/
def specFlipVertical (p : NImg) : NImg :=
  ⟨p.w, p.h, fun x y => p.pix x (p.h - 1 - y)⟩

/-- Modelled from the spec's words: mirror the columns left-to-right. -/
def specFlipHorizontal (p : NImg) : NImg :=
  ⟨p.w, p.h, fun x y => p.pix (p.w - 1 - x) y⟩

/-- Modelled from the spec's words: rotate by 180 degrees. -/
def specRotate180 (p : NImg) : NImg :=
  ⟨p.w, p.h, fun x y => p.pix (p.w - 1 - x) (p.h - 1 - y)⟩

/-- Modelled from the spec's words: rotate 90 degrees clockwise (source
pixel `(x,y)` lands at `(h-1-y, x)`). -/
def specRotate90CW (p : NImg) : NImg :=
  ⟨p.h, p.w, fun x y => p.pix y (p.h - 1 - x)⟩

/-- Modelled from the spec's words: rotate 90 degrees counter-clockwise
(source pixel `(x,y)` lands at `(y, w-1-x)`). -/
def specRotate90CCW (p : NImg) : NImg :=
  ⟨p.h, p.w, fun x y => p.pix (p.w - 1 - y) x⟩

/-- Modelled from the spec's words: transpose across the main diagonal
(source pixel `(x,y)` lands at `(y,x)`). -/
def specTranspose (p : NImg) : NImg :=
  ⟨p.h, p.w, fun x y => p.pix y x⟩

/-- Modelled from the spec's words: transverse (anti-transpose): source
pixel `(x,y)` lands at `(h-1-y, w-1-x)`. -/
def specTransverse (p : NImg) : NImg :=
  ⟨p.h, p.w, fun x y => p.pix (p.w - 1 - y) (p.h - 1 - x)⟩


/-- A concrete 2×3 image with six distinct pixels, used by witnesses. -/
def img23 : NImg :=
  ⟨2, 3, fun x y => ⟨x, y, 10 * x + y, 255⟩⟩


/-! ## Lanczos resampling (claim C4) -/

/-- Grid counterpart of `samplePixelClamped`, used by the resampling and
flood-fill kernels (these always run on non-empty buffers, where the
flat and grid views coincide by `samplePixelClamped_safe`). -/
def sampleClamped (p : NImg) (x y : ℤ) : Px :=
  p.pix (clampInt x 0 ((p.w : ℤ) - 1)).toNat (clampInt y 0 ((p.h : ℤ) - 1)).toNat

/-- `sinc` helper (resample file): `sin(πx)/(πx)`, `1` at `0`. -/
noncomputable def sinc (x : ℝ) : ℝ :=
  if x = 0 then 1 else Real.sin (Real.pi * x) / (Real.pi * x)

/-- `lanczosKernel(x, a)`: windowed sinc weight. -/
noncomputable def lanczosKernel (x a : ℝ) : ℝ :=
  if |x| < 1e-12 then 1
  else if |x| ≥ a then 0
  else sinc |x| * sinc (|x| / a)

/-- The weight Go accumulates for source tap `(xi, yi)` against the
mapped source position `(sx, sy)` (`w = wx*wy`). -/
noncomputable def lanczosTapWeight (sx sy a : ℝ) (xi yi : ℤ) : ℝ :=
  lanczosKernel ((xi : ℝ) - sx) a * lanczosKernel ((yi : ℝ) - sy) a

/-- One output channel of `ResampleLanczos`: windowed weighted sum of
the clamp-sampled taps, normalised by the weight sum (`1` if the weight
sum is zero), clamped and truncated to a byte. -/
noncomputable def lanczosChannel (src : NImg) (sx sy a : ℝ) (f : Px → ℕ) : ℕ :=
  let xMin := ⌊sx - a + 1⌋
  let xMax := ⌈sx + a - 1⌉
  let yMin := ⌊sy - a + 1⌋
  let yMax := ⌈sy + a - 1⌉
  let weightSum :=
    ∑ yi ∈ Finset.Icc yMin yMax, ∑ xi ∈ Finset.Icc xMin xMax,
      lanczosTapWeight sx sy a xi yi
  let ws := if weightSum = 0 then 1 else weightSum
  let s :=
    ∑ yi ∈ Finset.Icc yMin yMax, ∑ xi ∈ Finset.Icc xMin xMax,
      (f (sampleClamped src xi yi) : ℝ) * lanczosTapWeight sx sy a xi yi
  floatToByte (s / ws)

/-- `ResampleLanczos` (resample file).  The output buffer is allocated
as `image.NewNRGBA(image.Rect(0,0,dstW,dstH))`; `image.Rect` swaps the
corners when they are not ordered, so the allocated dimensions are
`|dstW| × |dstH|`.  The pixel loops run over `0 ≤ y < dstH`,
`0 ≤ x < dstW`; positions never reached stay zeroed. -/
noncomputable def ResampleLanczos (src : NImg) (dstW dstH : ℤ) (a : ℝ) : NImg :=
  if dstW = 0 ∨ dstH = 0 then ⟨dstW.natAbs, dstH.natAbs, fun _ _ => ⟨0, 0, 0, 0⟩⟩
  else
    ⟨dstW.natAbs, dstH.natAbs, fun x y =>
      if (x : ℤ) < dstW ∧ (y : ℤ) < dstH then
        let xScale : ℝ := (src.w : ℝ) / (dstW : ℝ)
        let yScale : ℝ := (src.h : ℝ) / (dstH : ℝ)
        let sx : ℝ := ((x : ℝ) + 0.5) * xScale - 0.5
        let sy : ℝ := ((y : ℝ) + 0.5) * yScale - 0.5
        ⟨lanczosChannel src sx sy a (fun p => p.r),
         lanczosChannel src sx sy a (fun p => p.g),
         lanczosChannel src sx sy a (fun p => p.b),
         lanczosChannel src sx sy a (fun p => p.a)⟩
      else ⟨0, 0, 0, 0⟩⟩


/-! ## Dispatcher argument validation for `resize` (claim C9) -/

/-- `strconv.Atoi` (Go stdlib, base-10): optional sign followed by at
least one decimal digit; anything else fails.  (Int64 overflow is
outside the model; the dispatcher only passes small widths.) -/
def atoiDigits : List Char → ℕ → Option ℕ
  | [], acc => some acc
  | c :: cs, acc =>
      if '0' ≤ c ∧ c ≤ '9' then
        atoiDigits cs (acc * 10 + (c.toNat - '0'.toNat))
      else none

/-- `strconv.Atoi` wrapper returning `none` on any parse error. -/
def goAtoi (s : String) : Option ℤ :=
  match s.toList with
  | [] => none
  | c :: rest =>
      if c = '-' then
        match rest with
        | [] => none
        | _ => (atoiDigits rest 0).map (fun n => -(n : ℤ))
      else if c = '+' then
        match rest with
        | [] => none
        | _ => (atoiDigits rest 0).map (fun n => (n : ℤ))
      else (atoiDigits (c :: rest) 0).map (fun n => (n : ℤ))

/-- The `case "resize"` arm of `ApplyCommandStdlib` (engine.go): the
argument-count guard, then width and height parsing (Go wraps the
underlying `strconv` error text after the `"invalid width"` /
`"invalid height"` tags; the model keeps the tags), then Lanczos
resampling with `a = 3`.  The dispatcher operates on a fresh `ToNRGBA`
copy of the caller's image, and every error return happens before any
pixel is written. -/
noncomputable def resizeCommand (src : NImg) (args : List String) :
    Except String NImg :=
  if args.length ≠ 2 then Except.error "resize requires 2 args: width height"
  else
    match goAtoi (args.getD 0 "") with
    | none => Except.error "invalid width"
    | some w =>
        match goAtoi (args.getD 1 "") with
        | none => Except.error "invalid height"
        | some h => Except.ok (ResampleLanczos (ToNRGBA src) w h 3)


/-! ## Tone and color transforms (levels.go; claims C3 and C10) -/

/-- Per-pixel mapping of `Level` (levels.go): normalise against the
black/white points, clamp to `[0,1]`, optionally apply `pow(v, 1/gamma)`
when `gamma > 0`, rescale to bytes; alpha is passed through the float
clamp. -/
noncomputable def levelPix (blackPoint gamma whitePoint : ℝ) (p : Px) : Px :=
  let minV := blackPoint
  let maxV := whitePoint
  let invGamma : ℝ := if gamma > 0 then 1 / gamma else 1
  let rn := min (max (((p.r : ℝ) - minV) / (maxV - minV)) 0) 1
  let gn := min (max (((p.g : ℝ) - minV) / (maxV - minV)) 0) 1
  let bn := min (max (((p.b : ℝ) - minV) / (maxV - minV)) 0) 1
  let rn2 := if gamma > 0 then Real.rpow rn invGamma else rn
  let gn2 := if gamma > 0 then Real.rpow gn invGamma else gn
  let bn2 := if gamma > 0 then Real.rpow bn invGamma else bn
  ⟨floatToByte (rn2 * 255), floatToByte (gn2 * 255),
   floatToByte (bn2 * 255), floatToByte ((p.a : ℝ))⟩

/-- `Level` (levels.go): `whitePoint ≤ blackPoint` is a no-op clone. -/
noncomputable def Level (src : NImg) (blackPoint gamma whitePoint : ℝ) : NImg :=
  if whitePoint ≤ blackPoint then CloneNRGBA src
  else ⟨src.w, src.h, fun x y => levelPix blackPoint gamma whitePoint (src.pix x y)⟩

/-- `Gamma` (levels.go): per-channel `pow(v/255, 1/gamma)*255`;
`gamma ≤ 0` is a no-op clone (Go additionally no-ops on the IEEE
specials NaN/Inf, which are outside the real-number model). -/
noncomputable def Gamma (src : NImg) (gamma : ℝ) : NImg :=
  if gamma ≤ 0 then CloneNRGBA src
  else
    let inv := 1 / gamma
    ⟨src.w, src.h, fun x y =>
      let p := src.pix x y
      ⟨floatToByte (Real.rpow ((p.r : ℝ) / 255) inv * 255),
       floatToByte (Real.rpow ((p.g : ℝ) / 255) inv * 255),
       floatToByte (Real.rpow ((p.b : ℝ) / 255) inv * 255),
       p.a⟩⟩

/-- Per-pixel mapping of `Negate` (levels.go). -/
noncomputable def negatePix (onlyGray : Bool) (p : Px) : Px :=
  if onlyGray then
    let rf := (p.r : ℝ) / 255
    let gf := (p.g : ℝ) / 255
    let bf := (p.b : ℝ) / 255
    let lum := 0.2126 * rf + 0.7152 * gf + 0.0722 * bf
    let invLum := 1 - lum
    if lum ≤ 0 then
      let v := floatToByte (invLum * 255)
      ⟨v, v, v, p.a⟩
    else
      ⟨floatToByte (invLum * (rf / lum) * 255),
       floatToByte (invLum * (gf / lum) * 255),
       floatToByte (invLum * (bf / lum) * 255), p.a⟩
  else ⟨255 - p.r, 255 - p.g, 255 - p.b, p.a⟩

/-- `Negate` (levels.go). -/
noncomputable def Negate (src : NImg) (onlyGray : Bool) : NImg :=
  ⟨src.w, src.h, fun x y => negatePix onlyGray (src.pix x y)⟩

/-- Per-pixel mapping of `Threshold` (levels.go); `thresh` is already
clamped to `[0,255]` by the wrapper. -/
noncomputable def thresholdPix (thresh : ℝ) (perChannel : Bool) (p : Px) : Px :=
  if perChannel then
    ⟨if (p.r : ℝ) ≥ thresh then 255 else 0,
     if (p.g : ℝ) ≥ thresh then 255 else 0,
     if (p.b : ℝ) ≥ thresh then 255 else 0, p.a⟩
  else
    let lum := 0.2126 * ((p.r : ℝ) / 255) + 0.7152 * ((p.g : ℝ) / 255) +
      0.0722 * ((p.b : ℝ) / 255)
    if lum * 255 ≥ thresh then ⟨255, 255, 255, p.a⟩ else ⟨0, 0, 0, p.a⟩

/-- `Threshold` (levels.go). -/
noncomputable def Threshold (src : NImg) (thresh : ℝ) (perChannel : Bool) : NImg :=
  let t := if thresh < 0 then 0 else if thresh > 255 then 255 else thresh
  ⟨src.w, src.h, fun x y => thresholdPix t perChannel (src.pix x y)⟩

/-- Per-channel running minimum of `Normalize` (levels.go), folded in
Go's row-major visit order starting from `255.0`. -/
noncomputable def channelMin (src : NImg) (f : Px → ℕ) : ℝ :=
  (List.range src.h).foldl
    (fun acc y => (List.range src.w).foldl
      (fun a2 x => min a2 ((f (src.pix x y) : ℝ))) acc) 255

/-- Per-channel running maximum of `Normalize`, starting from `0.0`. -/
noncomputable def channelMax (src : NImg) (f : Px → ℕ) : ℝ :=
  (List.range src.h).foldl
    (fun acc y => (List.range src.w).foldl
      (fun a2 x => max a2 ((f (src.pix x y) : ℝ))) acc) 0

/-- `Normalize` (levels.go): stretch each channel's observed `[min,max]`
to `[0,255]`; a degenerate channel (`max ≤ min`) divides by 255. -/
noncomputable def Normalize (src : NImg) : NImg :=
  let minR := channelMin src (fun p => p.r)
  let minG := channelMin src (fun p => p.g)
  let minB := channelMin src (fun p => p.b)
  let maxR := channelMax src (fun p => p.r)
  let maxG := channelMax src (fun p => p.g)
  let maxB := channelMax src (fun p => p.b)
  let nrm : ℕ → ℝ → ℝ → ℝ := fun v mn mx =>
    if mx ≤ mn then (v : ℝ) / 255 else ((v : ℝ) - mn) / (mx - mn)
  ⟨src.w, src.h, fun x y =>
    let p := src.pix x y
    ⟨floatToByte (nrm p.r minR maxR * 255),
     floatToByte (nrm p.g minG maxG * 255),
     floatToByte (nrm p.b minB maxB * 255), p.a⟩⟩

/-- `AutoLevel` (levels.go): wrapper for `Normalize`. -/
noncomputable def AutoLevel (src : NImg) : NImg := Normalize src

/-- Rec.709 luminance of a pixel with channels scaled to `[0,1]`
(levels.go, `AutoGamma` / `Threshold` / `Negate`). -/
noncomputable def lum01 (p : Px) : ℝ :=
  0.2126 * ((p.r : ℝ) / 255) + 0.7152 * ((p.g : ℝ) / 255) +
    0.0722 * ((p.b : ℝ) / 255)

/-- `AutoGamma` (levels.go): solve `gamma = log 0.5 / log mean` for the
mean luminance, clamp to `[0.1, 10]`, apply per channel; empty images
and `mean ∉ (0,1)` are no-op clones (Go additionally no-ops on NaN/Inf
gamma, outside the real model). -/
noncomputable def AutoGamma (src : NImg) : NImg :=
  let total : ℝ := ((src.w * src.h : ℕ) : ℝ)
  if total ≤ 0 then CloneNRGBA src
  else
    let mean := (∑ y ∈ Finset.range src.h, ∑ x ∈ Finset.range src.w,
      lum01 (src.pix x y)) / total
    if mean ≤ 0 ∨ 1 ≤ mean then CloneNRGBA src
    else
      let gamma0 := Real.log 0.5 / Real.log mean
      let gamma1 := if gamma0 < 0.1 then 0.1 else gamma0
      let gamma2 := if gamma1 > 10 then 10 else gamma1
      ⟨src.w, src.h, fun x y =>
        let p := src.pix x y
        ⟨floatToByte (Real.rpow ((p.r : ℝ) / 255) gamma2 * 255),
         floatToByte (Real.rpow ((p.g : ℝ) / 255) gamma2 * 255),
         floatToByte (Real.rpow ((p.b : ℝ) / 255) gamma2 * 255),
         p.a⟩⟩

/-! ## Noise synthesis (noise.go; claim C3)

`math/rand` is external Go-stdlib code; the generator is abstracted as
a sequence `draws : ℕ → ℝ` of uniform variates consumed in pixel order
(the `seed` argument selects the stream; the source maps `seed == 0` to
the fixed seed 1). -/

/-- `upper` (noise.go): ASCII uppercase. -/
def upper (s : String) : String :=
  String.mk (s.toList.map (fun c =>
    if 'a' ≤ c ∧ c ≤ 'z' then Char.ofNat (c.toNat - ('a'.toNat - 'A'.toNat))
    else c))

/-- `gaussianSample` (noise.go): Box–Muller normal sample scaled by the
standard deviation. -/
noncomputable def gaussianSample (u1 u2 std : ℝ) : ℝ :=
  if std ≤ 0 then 0
  else Real.sqrt (-2 * Real.log u1) * Real.cos (2 * Real.pi * u2) * std

/-- `sort.SearchFloat64s` (Go stdlib): smallest index whose entry is
`≥ x`; on the nondecreasing CDF slices used here Go's binary search
agrees with this front-to-back count. -/
noncomputable def searchFloat64s : List ℝ → ℝ → ℕ
  | [], _ => 0
  | v :: rest, x => if v < x then searchFloat64s rest x + 1 else 0

/-- The CDF-pumping loop of `buildPoissonCDFs` (noise.go); `fuel` is the
source's explicit iteration bound `upper` (the loop runs while
`cum < 1-1e-12 && k <= upper`). -/
noncomputable def poissonCDFLoop (lambda : ℝ) :
    ℕ → ℕ → ℝ → ℝ → List ℝ → List ℝ
  | 0, _, _, _, acc => acc.reverse
  | fuel + 1, k, p, cum, acc =>
      if cum < 1 - 1e-12 then
        let p2 := p * lambda / (k : ℝ)
        let cum2 := if cum + p2 > 1 then 1 else cum + p2
        poissonCDFLoop lambda fuel (k + 1) p2 cum2 (cum2 :: acc)
      else acc.reverse

/-- One entry of `buildPoissonCDFs` (noise.go), for channel value `ch`:
`lambda = (ch/255)*amount`, truncated at cumulative `1-1e-12` or the
index bound `max 32 ⌈lambda + 10*sqrt(lambda) + 10⌉`. -/
noncomputable def buildPoissonCDF (amount : ℝ) (ch : ℕ) : List ℝ :=
  let lambda := ((ch : ℝ) / 255) * amount
  if lambda ≤ 0 then [1]
  else
    let p := Real.exp (-lambda)
    let upperB := max 32 (⌈lambda + 10 * Real.sqrt lambda + 10⌉.toNat)
    poissonCDFLoop lambda upperB 1 p p [p]

/-- Per-pixel perturbation of `AddNoise` (noise.go); `k` is the pixel's
row-major index (each pixel consumes a fixed number of draws: 3 for
UNIFORM and POISSON, 6 for GAUSSIAN). -/
noncomputable def noisePix (draws : ℕ → ℝ) (amount : ℝ) (typU : String)
    (k : ℕ) (p : Px) : Px :=
  if typU = "UNIFORM" then
    ⟨floatToByte ((p.r : ℝ) + (draws (3 * k) * 2 - 1) * amount),
     floatToByte ((p.g : ℝ) + (draws (3 * k + 1) * 2 - 1) * amount),
     floatToByte ((p.b : ℝ) + (draws (3 * k + 2) * 2 - 1) * amount),
     floatToByte ((p.a : ℝ))⟩
  else if typU = "POISSON" then
    let sample : ℕ → ℝ → ℕ := fun ch u =>
      searchFloat64s (buildPoissonCDF amount (min ch 255)) u
    ⟨floatToByte ((sample p.r (draws (3 * k)) : ℕ) * (255 / amount)),
     floatToByte ((sample p.g (draws (3 * k + 1)) : ℕ) * (255 / amount)),
     floatToByte ((sample p.b (draws (3 * k + 2)) : ℕ) * (255 / amount)),
     floatToByte ((p.a : ℝ))⟩
  else
    ⟨floatToByte ((p.r : ℝ) + gaussianSample (draws (6 * k)) (draws (6 * k + 1)) amount),
     floatToByte ((p.g : ℝ) + gaussianSample (draws (6 * k + 2)) (draws (6 * k + 3)) amount),
     floatToByte ((p.b : ℝ) + gaussianSample (draws (6 * k + 4)) (draws (6 * k + 5)) amount),
     floatToByte ((p.a : ℝ))⟩

/-- `AddNoise` (noise.go): `amount ≤ 0` is a no-op clone; otherwise the
per-pixel perturbation for the uppercased type name. -/
noncomputable def AddNoise (draws : ℕ → ℝ) (src : NImg) (typ : String)
    (amount : ℝ) (seed : ℤ) : NImg :=
  if amount ≤ 0 then CloneNRGBA src
  else
    let typU := upper typ
    ⟨src.w, src.h, fun x y => noisePix draws amount typU (y * src.w + x) (src.pix x y)⟩

/-! ## Median filter (levels.go; claim C3)

Integer-only sliding-window order statistic; histograms are functions
`ℕ → ℤ` (Go: 256-bucket int arrays). -/

/-- One channel of the sliding-window state: histogram, running median
and cumulative count. -/
structure MFChan where
  hist : ℕ → ℤ
  med : ℕ
  cum : ℤ

def histInc (h : ℕ → ℤ) (v : ℕ) : ℕ → ℤ := fun i => if i = v then h i + 1 else h i

def histDec (h : ℕ → ℤ) (v : ℕ) : ℕ → ℤ := fun i => if i = v then h i - 1 else h i

/-- Add value `v` to a channel window (histogram bump plus the
`if v <= lastMed { lastCum++ }` bookkeeping). -/
def chanAdd (c : MFChan) (v : ℕ) : MFChan :=
  ⟨histInc c.hist v, c.med, if v ≤ c.med then c.cum + 1 else c.cum⟩

/-- Remove value `v` from a channel window. -/
def chanRem (c : MFChan) (v : ℕ) : MFChan :=
  ⟨histDec c.hist v, c.med, if v ≤ c.med then c.cum - 1 else c.cum⟩

/-- `computeInitialMedian` (levels.go): first bucket where the running
sum reaches `half`; `(0,0)` if never reached.  `fuel` starts at 256. -/
def cimAux (hist : ℕ → ℤ) (half : ℤ) : ℕ → ℕ → ℤ → ℕ × ℤ
  | 0, _, _ => (0, 0)
  | fuel + 1, v, sum =>
      let s := sum + hist v
      if half ≤ s then (v, s) else cimAux hist half fuel (v + 1) s

/-- Initialise a channel's median/cumulative pair at column 0 (Go
integer division of the nonnegative window count). -/
def chanInitMedian (c : MFChan) (count : ℤ) : MFChan :=
  let half : ℤ := (((count + 1).toNat) / 2 : ℕ)
  let r := cimAux c.hist half 256 0 0
  ⟨c.hist, r.1, r.2⟩

/-- Walk the running median down (`for lastMed > 0 &&
lastCum - hist[lastMed] >= half`). -/
def medDown (hist : ℕ → ℤ) (half : ℤ) : ℕ → ℤ → ℕ × ℤ
  | 0, cum => (0, cum)
  | m + 1, cum =>
      if half ≤ cum - hist (m + 1) then medDown hist half m (cum - hist (m + 1))
      else (m + 1, cum)

/-- Walk the running median up (`for lastMed < 255 && lastCum < half`);
`fuel` starts at 255 and dominates the at-most-255 steps. -/
def medUp (hist : ℕ → ℤ) (half : ℤ) : ℕ → ℕ → ℤ → ℕ × ℤ
  | 0, m, cum => (m, cum)
  | fuel + 1, m, cum =>
      if m < 255 ∧ cum < half then medUp hist half fuel (m + 1) (cum + hist (m + 1))
      else (m, cum)

/-- Post-slide median adjustment (down-walk then up-walk, as in the
source). -/
def chanAdjust (c : MFChan) (half : ℤ) : MFChan :=
  let d := medDown c.hist half c.med c.cum
  let u := medUp c.hist half 255 d.1 d.2
  ⟨c.hist, u.1, u.2⟩

/-- Full sliding-window state: the four channel states plus
`windowCount`. -/
structure MFState where
  cr : MFChan
  cg : MFChan
  cb : MFChan
  ca : MFChan
  count : ℤ

def mfAddPix (s : MFState) (p : Px) : MFState :=
  ⟨chanAdd s.cr p.r, chanAdd s.cg p.g, chanAdd s.cb p.b, chanAdd s.ca p.a,
   s.count + 1⟩

def mfRemPix (s : MFState) (p : Px) : MFState :=
  ⟨chanRem s.cr p.r, chanRem s.cg p.g, chanRem s.cb p.b, chanRem s.ca p.a,
   s.count - 1⟩

/-- The inclusive integer range `[a,b]` in order. -/
def zrange (a b : ℤ) : List ℤ := (List.range ((b + 1 - a).toNat)).map (fun i => a + (i : ℤ))

/-- Read a pixel at integer coordinates the source guarantees in-bounds. -/
def getPx (p : NImg) (x y : ℤ) : Px := p.pix x.toNat y.toNat

def mfAddCol (src : NImg) (ox y0 y1 : ℤ) (s : MFState) : MFState :=
  (zrange y0 y1).foldl (fun st oy => mfAddPix st (getPx src ox oy)) s

def mfRemCol (src : NImg) (ox y0 y1 : ℤ) (s : MFState) : MFState :=
  (zrange y0 y1).foldl (fun st oy => mfRemPix st (getPx src ox oy)) s

def mfChanZero : MFChan := ⟨fun _ => 0, 0, 0⟩

def mfEmpty : MFState := ⟨mfChanZero, mfChanZero, mfChanZero, mfChanZero, 0⟩

/-- Histogram initialisation for the `x = 0` window (columns
`-radius..radius`, skipping out-of-range ones). -/
def mfInitWindow (src : NImg) (radius y0 y1 : ℤ) : MFState :=
  (zrange (0 - radius) radius).foldl
    (fun st ox => if ox < 0 ∨ (src.w : ℤ) ≤ ox then st else mfAddCol src ox y0 y1 st)
    mfEmpty

def mfInitMedians (s : MFState) : MFState :=
  ⟨chanInitMedian s.cr s.count, chanInitMedian s.cg s.count,
   chanInitMedian s.cb s.count, chanInitMedian s.ca s.count, s.count⟩

/-- One column step of the per-row loop: emit the current medians, then
slide the window (remove column `x-radius`, add column `x+radius+1`)
and re-adjust the running medians. -/
def mfStep (src : NImg) (radius y0 y1 : ℤ) (st : MFState × List Px) (x : ℕ) :
    MFState × List Px :=
  let s1 := if x = 0 then mfInitMedians st.1 else st.1
  let outPx : Px := ⟨s1.cr.med, s1.cg.med, s1.cb.med, s1.ca.med⟩
  let removeX : ℤ := (x : ℤ) - radius
  let s2 := if 0 ≤ removeX then mfRemCol src removeX y0 y1 s1 else s1
  let addX : ℤ := (x : ℤ) + radius + 1
  let s3 := if addX < (src.w : ℤ) then mfAddCol src addX y0 y1 s2 else s2
  let half : ℤ := ((((s3.count + 1).toNat) / 2 : ℕ) : ℤ)
  let s4 : MFState := ⟨chanAdjust s3.cr half, chanAdjust s3.cg half,
    chanAdjust s3.cb half, chanAdjust s3.ca half, s3.count⟩
  (s4, st.2 ++ [outPx])

/-- One output row of `MedianFilter`. -/
def mfRow (src : NImg) (radius : ℤ) (y : ℕ) : List Px :=
  let y0 : ℤ := max 0 ((y : ℤ) - radius)
  let y1 : ℤ := min ((src.h : ℤ) - 1) ((y : ℤ) + radius)
  let init := mfInitWindow src radius y0 y1
  ((List.range src.w).foldl (mfStep src radius y0 y1) (init, [])).2

/-- `MedianFilter` (levels.go): `radius ≤ 0` is a no-op clone. -/
def MedianFilter (src : NImg) (radius : ℤ) : NImg :=
  if radius ≤ 0 then CloneNRGBA src
  else ⟨src.w, src.h, fun x y => (mfRow src radius y).getD x ⟨0, 0, 0, 0⟩⟩

/-! ## Compositor (composite.go; claims C1 and C8)

`Composite` in the source blends into `dst.Pix` in place and returns
`dst` ("dst is modified in place and returned"); the value computed here
is therefore the post-call content of the destination buffer. -/

noncomputable def clamp01 (v : ℝ) : ℝ :=
  if v < 0 then 0 else if v > 1 then 1 else v

noncomputable def blendMultiply (sr dr : ℝ) : ℝ := sr * dr

noncomputable def blendScreen (sr dr : ℝ) : ℝ := 1 - (1 - sr) * (1 - dr)

noncomputable def blendOverlay (sr dr : ℝ) : ℝ :=
  if dr < 0.5 then 2 * sr * dr else 1 - 2 * (1 - sr) * (1 - dr)

noncomputable def blendAdd (sr dr : ℝ) : ℝ := clamp01 (sr + dr)

noncomputable def blendDifference (sr dr : ℝ) : ℝ := |dr - sr|

/-- `stringUpper` (composite.go): ASCII uppercase. -/
def stringUpper (s : String) : String :=
  String.mk (s.toList.map (fun c =>
    if 'a' ≤ c ∧ c ≤ 'z' then Char.ofNat (c.toNat - 32) else c))

/-- The blend-function switch of `Composite`; unknown operator names
fall back to plain "over" (pass-through of the source channel). -/
noncomputable def blendFor (op : String) : ℝ → ℝ → ℝ :=
  match stringUpper op with
  | "MULTIPLY" => blendMultiply
  | "SCREEN" => blendScreen
  | "OVERLAY" => blendOverlay
  | "ADD" => blendAdd
  | "PLUS" => blendAdd
  | "SUM" => blendAdd
  | "DIFFERENCE" => blendDifference
  | "DISSOLVE" => fun sr _ => sr
  | _ => fun sr _ => sr

/-- The per-pixel body of `Composite`'s loop: blend the RGB channels,
then composite over the destination with straight source alpha. -/
noncomputable def compositePix (blend : ℝ → ℝ → ℝ) (s d : Px) : Px :=
  let sr := (s.r : ℝ) / 255
  let sg := (s.g : ℝ) / 255
  let sb := (s.b : ℝ) / 255
  let sa := (s.a : ℝ) / 255
  let dr := (d.r : ℝ) / 255
  let dg := (d.g : ℝ) / 255
  let db := (d.b : ℝ) / 255
  let da := (d.a : ℝ) / 255
  let br := blend sr dr
  let bg := blend sg dg
  let bb := blend sb db
  let outA := sa + da * (1 - sa)
  let outR := (1 - sa) * dr + sa * br
  let outG := (1 - sa) * dg + sa * bg
  let outB := (1 - sa) * db + sa * bb
  ⟨floatToByte (outR * 255), floatToByte (outG * 255),
   floatToByte (outB * 255), floatToByte (outA * 255)⟩

/-- The overlap footprint of `Composite` for zero-origin buffers: the
exact range of the writing loops, `startX ≤ x < endX`,
`startY ≤ y < endY` with `startX = max(0, xoff)`,
`endX = min(dstW, xoff + srcW)` and likewise vertically. -/
def inFootprint (dst src : NImg) (xoff yoff : ℤ) (x y : ℕ) : Prop :=
  max 0 xoff ≤ (x : ℤ) ∧ (x : ℤ) < min (dst.w : ℤ) (xoff + (src.w : ℤ)) ∧
  max 0 yoff ≤ (y : ℤ) ∧ (y : ℤ) < min (dst.h : ℤ) (yoff + (src.h : ℤ))

instance (dst src : NImg) (xoff yoff : ℤ) (x y : ℕ) :
    Decidable (inFootprint dst src xoff yoff x y) := by
  unfold inFootprint
  infer_instance

/-- `Composite` (composite.go): result = post-call contents of the
destination buffer.  Pixels inside the overlap footprint receive the
blended value (the source pixel is read at the offset-shifted
coordinate); everything else keeps its previous bytes, and an empty
overlap returns the destination unchanged. -/
noncomputable def Composite (dst src : NImg) (op : String) (xoff yoff : ℤ) : NImg :=
  if max 0 xoff ≥ min (dst.w : ℤ) (xoff + (src.w : ℤ)) ∨
      max 0 yoff ≥ min (dst.h : ℤ) (yoff + (src.h : ℤ)) then dst
  else
    ⟨dst.w, dst.h, fun x y =>
      if inFootprint dst src xoff yoff x y then
        compositePix (blendFor op)
          (src.pix ((x : ℤ) - xoff).toNat ((y : ℤ) - yoff).toNat)
          (dst.pix x y)
      else dst.pix x y⟩

/-- Concrete 1×1 opaque red destination. -/
def dstRed : NImg := ⟨1, 1, fun _ _ => ⟨255, 0, 0, 255⟩⟩

/-- Concrete 1×1 half-transparent blue source. -/
def srcBlue : NImg := ⟨1, 1, fun _ _ => ⟨0, 0, 255, 128⟩⟩

/-- Concrete 1×1 opaque gray destination. -/
def dstGray : NImg := ⟨1, 1, fun _ _ => ⟨100, 100, 100, 255⟩⟩

/-- Concrete 1×1 half-transparent gray source (same RGB as `dstGray`). -/
def srcGray : NImg := ⟨1, 1, fun _ _ => ⟨100, 100, 100, 128⟩⟩

/-- Concrete 2×1 destination (red pixels). -/
def dstRed2 : NImg := ⟨2, 1, fun _ _ => ⟨255, 0, 0, 255⟩⟩

/-! ## Lab color conversions (flood-fill source file; claims C2 and C7) -/

/-- A CIE Lab triple. -/
structure Lab where
  l : ℝ
  a : ℝ
  b : ℝ

/-- `srgbToLinear` (flood-fill file): sRGB byte to linear in `[0,1]`. -/
noncomputable def srgbToLinear (c : ℕ) : ℝ :=
  let v := (c : ℝ) / 255
  if v ≤ 0.04045 then v / 12.92 else Real.rpow ((v + 0.055) / 1.055) 2.4

/-- `linearToXyz` (flood-fill file): sRGB D65 matrix. -/
noncomputable def linearToXyz (r g b : ℝ) : ℝ × ℝ × ℝ :=
  (0.4124564 * r + 0.3575761 * g + 0.1804375 * b,
   0.2126729 * r + 0.7151522 * g + 0.0721750 * b,
   0.0193339 * r + 0.1191920 * g + 0.9503041 * b)

/-- The `f` helper inside `xyzToLab`. -/
noncomputable def labF (t : ℝ) : ℝ :=
  if t > 0.008856 then Real.rpow t (1 / 3) else 7.787037 * t + 16 / 116

/-- `xyzToLab` (flood-fill file), reference D65. -/
noncomputable def xyzToLab (x y z : ℝ) : Lab :=
  let xr := x / 0.95047
  let yr := y / 1.00000
  let zr := z / 1.08883
  let fx := labF xr
  let fy := labF yr
  let fz := labF zr
  ⟨116 * fy - 16, 500 * (fx - fy), 200 * (fy - fz)⟩

/-- `rgbToLab` (flood-fill file). -/
noncomputable def rgbToLab (c : Px) : Lab :=
  let t := linearToXyz (srgbToLinear c.r) (srgbToLinear c.g) (srgbToLinear c.b)
  xyzToLab t.1 t.2.1 t.2.2

/-- Squared Euclidean Lab distance (the glossary's ΔE, squared). -/
noncomputable def deltaESq (u v : Lab) : ℝ :=
  (u.l - v.l) * (u.l - v.l) + (u.a - v.a) * (u.a - v.a) +
    (u.b - v.b) * (u.b - v.b)

/-- `labDistanceSq` (flood-fill file). -/
noncomputable def labDistanceSq (c1 c2 : Px) : ℝ :=
  deltaESq (rgbToLab c1) (rgbToLab c2)

/-! ## Lab-space sepia toning (sepia.go; claim C2) -/

/-- `srgb8ToLinearLUT` (sepia.go): the 256-entry LUT holds exactly the
sRGB-to-linear formula at each byte value. -/
noncomputable def srgb8ToLinearLUT (c : ℕ) : ℝ := srgbToLinear c

/-- One entry of `linearToSrgbLUT` (sepia.go): gamma encoding of the
uniform linear sample `i/255`. -/
noncomputable def linearToSrgbLUTval (i : ℕ) : ℝ :=
  let lv := (i : ℝ) / 255
  if lv ≤ 0.0031308 then 12.92 * lv
  else 1.055 * Real.rpow lv (1 / 2.4) - 0.055

/-- `linearToSrgbApprox` (sepia.go): LUT lookup with linear
interpolation between adjacent entries. -/
noncomputable def linearToSrgbApprox (v : ℝ) : ℝ :=
  if v ≤ 0 then 0
  else if v ≥ 1 then 1
  else
    let f := v * 255
    let i0 : ℤ := ⌊f⌋
    let i : ℤ := if i0 < 0 then 0 else i0
    if i ≥ 255 then linearToSrgbLUTval 255
    else
      let r := linearToSrgbLUTval i.toNat
      let rn := linearToSrgbLUTval (i.toNat + 1)
      let frac := f - (i : ℝ)
      r * (1 - frac) + rn * frac

/-- `smoothstep` (sepia.go). -/
noncomputable def smoothstep (a b x : ℝ) : ℝ :=
  if a = b then clamp01 (x - a)
  else
    let t := (x - a) / (b - a)
    if t ≤ 0 then 0 else if t ≥ 1 then 1 else t * t * (3 - 2 * t)

/-- `midtoneWeight` (sepia.go): Gaussian weight over Lab `L`. -/
noncomputable def midtoneWeight (L mu sigma : ℝ) : ℝ :=
  let v := (L - mu) / sigma
  Real.exp (-0.5 * v * v)

/-- `highlightProtect` (sepia.go). -/
noncomputable def highlightProtect (L thresh soft : ℝ) : ℝ :=
  if soft ≤ 0 then (if L ≤ thresh then 1 else 0)
  else 1 - smoothstep thresh (thresh + soft) L

/-- `applySCurve` (sepia.go). -/
noncomputable def applySCurve (L curve : ℝ) : ℝ :=
  if curve ≤ 0 then L
  else
    let Ln := L / 100
    let s := smoothstep 0 1 Ln
    clamp01 ((1 - curve) * Ln + curve * s) * 100

/-- `finvLab` (sepia.go). -/
noncomputable def finvLab (t : ℝ) : ℝ :=
  let delta : ℝ := 6 / 29
  if t > delta then t * t * t else 3 * delta * delta * (t - 4 / 29)

/-- `labToXYZ` (sepia.go). -/
noncomputable def labToXYZ (L a b : ℝ) : ℝ × ℝ × ℝ :=
  let fy := (L + 16) / 116
  let fx := fy + a / 500
  let fz := fy - b / 200
  (0.95047 * finvLab fx, 1.00000 * finvLab fy, 1.08883 * finvLab fz)

/-- `xyzToLinearRGB` (sepia.go): matrix then per-channel clamp to
`[0,1]` (the source's `r<0 / r>1` if-chains are exactly `clamp01`). -/
noncomputable def xyzToLinearRGB (x y z : ℝ) : ℝ × ℝ × ℝ :=
  (clamp01 (3.2404542 * x - 1.5371385 * y - 0.4985314 * z),
   clamp01 (-0.9692660 * x + 1.8760108 * y + 0.0415560 * z),
   clamp01 (0.0556434 * x - 0.2040259 * y + 1.0572252 * z))

/-- `parseHexColor("#704214")` (the fixed sepia target): bytes
`(0x70, 0x42, 0x14, 0xff)`. -/
def sepiaTarget : Px := ⟨112, 66, 20, 255⟩

/-- Lab of a pixel through the sepia LUT pipeline (as the source
computes both the target Lab and each pixel's Lab). -/
noncomputable def sepiaLabOf (p : Px) : Lab :=
  let t := linearToXyz (srgb8ToLinearLUT p.r) (srgb8ToLinearLUT p.g)
    (srgb8ToLinearLUT p.b)
  xyzToLab t.1 t.2.1 t.2.2

/-- The Lab-space blend step of `SepiaTone` (lines `L2 = (1-pLocal)*L +
pLocal*Lsep` and the analogous `a2`, `b2`). -/
noncomputable def sepiaBlend (pLocal : ℝ) (u t : Lab) : Lab :=
  ⟨(1 - pLocal) * u.l + pLocal * t.l,
   (1 - pLocal) * u.a + pLocal * t.a,
   (1 - pLocal) * u.b + pLocal * t.b⟩

/-- Per-pixel body of `SepiaTone` (sepia.go); fully transparent pixels
pass through unchanged.  The parameters arrive already sanitised by the
wrapper. -/
noncomputable def sepiaPix (pct mCenter mSigma hThresh hSoft curv : ℝ)
    (tLab : Lab) (p : Px) : Px :=
  if p.a = 0 then p
  else
    let lab := sepiaLabOf p
    let pL0 := pct * midtoneWeight lab.l mCenter mSigma *
      highlightProtect lab.l hThresh hSoft
    let pL1 := if pL0 < 0 then 0 else pL0
    let pLocal := if pL1 > 1 then 1 else pL1
    let blended := sepiaBlend pLocal lab tLab
    let L3 := applySCurve blended.l curv
    let xyz2 := labToXYZ L3 blended.a blended.b
    let rgb2 := xyzToLinearRGB xyz2.1 xyz2.2.1 xyz2.2.2
    ⟨floatToByte (linearToSrgbApprox rgb2.1 * 255),
     floatToByte (linearToSrgbApprox rgb2.2.1 * 255),
     floatToByte (linearToSrgbApprox rgb2.2.2 * 255), p.a⟩

/-- `SepiaTone` (sepia.go): `percentage ≤ 0` returns the input image
itself; otherwise parameters are sanitised and every pixel is mapped by
`sepiaPix` (the single-threaded and row-partitioned parallel paths
compute the same per-pixel function). -/
noncomputable def SepiaTone (src : NImg)
    (percentage midtoneCenter midtoneSigma highlightThreshold
     highlightSoftness curve : ℝ) : NImg :=
  if percentage ≤ 0 then src
  else
    let pct := if percentage > 1 then 1 else percentage
    let mSigma := if midtoneSigma ≤ 0 then 1 else midtoneSigma
    let mCenter0 := if midtoneCenter < 0 then 0 else midtoneCenter
    let mCenter := if mCenter0 > 100 then 100 else mCenter0
    let hThresh0 := if highlightThreshold < 0 then 0 else highlightThreshold
    let hThresh := if hThresh0 > 100 then 100 else hThresh0
    let hSoft := if highlightSoftness < 0 then 0 else highlightSoftness
    let curv0 := if curve < 0 then 0 else curve
    let curv := if curv0 > 1 then 1 else curv0
    let tLab := sepiaLabOf sepiaTarget
    ⟨src.w, src.h, fun x y =>
      sepiaPix pct mCenter mSigma hThresh hSoft curv tLab (src.pix x y)⟩

/-- Concrete 1×1 image whose pixel is fully transparent. -/
def imgT : NImg := ⟨1, 1, fun _ _ => ⟨10, 20, 30, 0⟩⟩

/-! ## Perceptual flood fill (flood-fill source file; claim C7)

The span-based fill is integer-only once the matching and boundary
closures are fixed, so the loop below is computable and generic over a
`fill : ℤ → ℤ → Bool` grid, where `fill px py` stands for the source's
`!(isBoundary(c) || !matchesTarget(c))` with
`c = samplePixelClamped(src, px, py)`; `FloodfillPaint` instantiates it
with the Lab predicates.  Loop fuels are the source's own bounds (the
stack shrinks by one seed per iteration, and every iteration that
pushes also sets at least one fresh mask bit). -/

/-- `idxOf` (flood-fill file): row-major bit index of `(px,py)`. -/
def idxOf (w : ℕ) (px py : ℤ) : ℤ := py * (w : ℤ) + px

/-- `getMask` on the mask (Go: a bitset of `w*h` bits; here one `Bool`
per pixel, read `false` out of range where Go never reads). -/
def getMask (m : List Bool) (i : ℤ) : Bool := m.getD i.toNat false

/-- `setMask`. -/
def setMask (m : List Bool) (i : ℤ) : List Bool := m.set i.toNat true

/-- Mark the span `xl..xr` of row `sy`. -/
def setSpan (m : List Bool) (w : ℕ) (sy xl xr : ℤ) : List Bool :=
  (zrange xl xr).foldl (fun mm xi => setMask mm (idxOf w xi sy)) m

/-- Expand the span left while the pixel at `xl-1` is in range,
unmasked and fillable (`fuel` starts at `xl.toNat + 1`). -/
def expandLeft (w : ℕ) (m : List Bool) (fill : ℤ → ℤ → Bool) (sy : ℤ) :
    ℕ → ℤ → ℤ
  | 0, xl => xl
  | fuel + 1, xl =>
      if 0 ≤ xl - 1 ∧ getMask m (idxOf w (xl - 1) sy) = false ∧
          fill (xl - 1) sy then
        expandLeft w m fill sy fuel (xl - 1)
      else xl

/-- Expand the span right symmetrically (`fuel` starts at `w + 1`). -/
def expandRight (w : ℕ) (m : List Bool) (fill : ℤ → ℤ → Bool) (sy : ℤ) :
    ℕ → ℤ → ℤ
  | 0, xr => xr
  | fuel + 1, xr =>
      if xr + 1 < (w : ℤ) ∧ getMask m (idxOf w (xr + 1) sy) = false ∧
          fill (xr + 1) sy then
        expandRight w m fill sy fuel (xr + 1)
      else xr

/-- Scan an adjacent row for unvisited fillable runs, pushing one seed
per run (the source's outer skip/push loop with its inner run-skipping
loop, flattened into a single pass with an in-run flag). -/
def scanRowSeeds (w : ℕ) (m : List Bool) (fill : ℤ → ℤ → Bool)
    (adjY endX : ℤ) : ℕ → ℤ → Bool → List (ℤ × ℤ) → List (ℤ × ℤ)
  | 0, _, _, acc => acc
  | fuel + 1, x, inRun, acc =>
      if x > endX then acc
      else
        if getMask m (idxOf w x adjY) = false ∧ fill x adjY then
          if inRun then scanRowSeeds w m fill adjY endX fuel (x + 1) true acc
          else scanRowSeeds w m fill adjY endX fuel (x + 1) true (acc ++ [(x, adjY)])
        else scanRowSeeds w m fill adjY endX fuel (x + 1) false acc

/-- The main span-fill stack loop; the stack is the Go slice (append at
the end, pop from the end). -/
def spanFillLoop (w h : ℕ) (fill : ℤ → ℤ → Bool) :
    ℕ → List (ℤ × ℤ) → List Bool → List Bool
  | 0, _, m => m
  | fuel + 1, stack, m =>
      match stack.getLast? with
      | none => m
      | some s =>
          let rest := stack.dropLast
          let sx := s.1
          let sy := s.2
          if sx < 0 ∨ (w : ℤ) ≤ sx ∨ sy < 0 ∨ (h : ℤ) ≤ sy then
            spanFillLoop w h fill fuel rest m
          else if getMask m (idxOf w sx sy) then
            spanFillLoop w h fill fuel rest m
          else if fill sx sy = false then
            spanFillLoop w h fill fuel rest m
          else
            let xl := expandLeft w m fill sy (sx.toNat + 1) sx
            let xr := expandRight w m fill sy (w + 1) sx
            let m2 := setSpan m w sy xl xr
            let startX := max 0 (xl - 1)
            let endX := min ((w : ℤ) - 1) (xr + 1)
            let seedsUp :=
              if 0 ≤ sy - 1 then
                scanRowSeeds w m2 fill (sy - 1) endX (w + 2) startX false []
              else []
            let seedsDown :=
              if sy + 1 < (h : ℤ) then
                scanRowSeeds w m2 fill (sy + 1) endX (w + 2) startX false []
              else []
            spanFillLoop w h fill fuel (rest ++ seedsUp ++ seedsDown) m2

/-- The `isBoundary` closure of `FloodfillPaint`: with a border color,
pixels within `fuzz²` Lab distance of it are impassable; without one,
nothing is a boundary. -/
noncomputable def ffIsBoundary (useBorder : Bool) (borderColor : Px)
    (fuzzSq : ℝ) : Px → Bool :=
  if useBorder then
    fun c => if labDistanceSq c borderColor ≤ fuzzSq then true else false
  else fun _ => false

/-- The `matchesTarget` closure: in border mode every non-boundary
pixel is fillable; otherwise a pixel matches the seed within `fuzz²`. -/
noncomputable def ffMatches (useBorder : Bool) (borderColor start : Px)
    (fuzzSq : ℝ) : Px → Bool :=
  fun c =>
    if useBorder then !(ffIsBoundary useBorder borderColor fuzzSq c)
    else if labDistanceSq c start ≤ fuzzSq then true else false

/-- The fillability grid the span loop consults: the negation of the
source's skip condition `isBoundary(c) || !matchesTarget(c)` at the
clamp-sampled pixel. -/
noncomputable def ffFillable (src : NImg) (useBorder : Bool)
    (borderColor start : Px) (fuzzSq : ℝ) : ℤ → ℤ → Bool :=
  fun px py =>
    let c := sampleClamped src px py
    !(ffIsBoundary useBorder borderColor fuzzSq c) &&
      ffMatches useBorder borderColor start fuzzSq c

/-- The discovered region mask of `FloodfillPaint`: seed clamping, fuzz
clamping to `[0,200]`, the border-mode decision, the border-less
`invert` global-matching branch versus the span fill, and the final
`invert` bit flip over the `size = w*h` mask bits. -/
noncomputable def ffMask (src : NImg) (fuzz : ℝ) (borderColor : Px)
    (x y : ℤ) (invert : Bool) : List Bool :=
  let w := src.w
  let h := src.h
  let xc0 := if x < 0 then 0 else x
  let xc := if (w : ℤ) ≤ xc0 then (w : ℤ) - 1 else xc0
  let yc0 := if y < 0 then 0 else y
  let yc := if (h : ℤ) ≤ yc0 then (h : ℤ) - 1 else yc0
  let start := sampleClamped src xc yc
  let useBorder : Bool := !(borderColor.r == 0 && borderColor.g == 0 &&
    borderColor.b == 0 && borderColor.a == 0)
  let fz0 := if fuzz < 0 then 0 else fuzz
  let fz := if fz0 > 200 then 200 else fz0
  let fuzzSq := fz * fz
  let size := w * h
  let mask0 : List Bool :=
    if !useBorder && invert then
      (List.range size).map (fun i =>
        ffMatches useBorder borderColor start fuzzSq
          (sampleClamped src ((i % w : ℕ) : ℤ) ((i / w : ℕ) : ℤ)))
    else
      spanFillLoop w h (ffFillable src useBorder borderColor start fuzzSq)
        ((size + 1) * (2 * w + 6) + 8) [(xc, yc)] (List.replicate size false)
  if invert then mask0.map (fun b => !b) else mask0

/-- The per-masked-pixel compositing step of `FloodfillPaint`: the fill
color alpha-blended over the original pixel with un-premultiplying. -/
noncomputable def compositeFill (f s : Px) : Px :=
  let fr := (f.r : ℝ)
  let fg := (f.g : ℝ)
  let fb := (f.b : ℝ)
  let fa := (f.a : ℝ) / 255
  let sr := (s.r : ℝ)
  let sg := (s.g : ℝ)
  let sb := (s.b : ℝ)
  let sa := (s.a : ℝ) / 255
  let outA := fa + sa * (1 - fa)
  if outA > 0 then
    ⟨floatToByte ((fr * fa + sr * sa * (1 - fa)) / outA),
     floatToByte ((fg * fa + sg * sa * (1 - fa)) / outA),
     floatToByte ((fb * fa + sb * sa * (1 - fa)) / outA),
     floatToByte (outA * 255)⟩
  else
    ⟨floatToByte 0, floatToByte 0, floatToByte 0, floatToByte (outA * 255)⟩

/-- `FloodfillPaint` (flood-fill source file): discover the region
mask, then composite the fill color over a clone of the input on the
masked pixels (the row-parallel compositing workers partition the same
per-pixel map). -/
noncomputable def FloodfillPaint (src : NImg) (fillColor : Px) (fuzz : ℝ)
    (borderColor : Px) (x y : ℤ) (invert : Bool) : NImg :=
  let mask := ffMask src fuzz borderColor x y invert
  ⟨src.w, src.h, fun px py =>
    if getMask mask (idxOf src.w (px : ℤ) (py : ℤ)) then
      compositeFill fillColor (src.pix px py)
    else src.pix px py⟩

/-- Region color A of the C7 scenarios. -/
def pxA : Px := ⟨5, 5, 5, 255⟩

/-- Surrounding color B of the C7 scenarios. -/
def pxB : Px := ⟨0, 0, 0, 255⟩

/-- Opaque white fill color. -/
def pxWhite : Px := ⟨255, 255, 255, 255⟩

/-- The zero NRGBA value (no border color). -/
def px0000 : Px := ⟨0, 0, 0, 0⟩

/-- Membership of the centered 3×3 region of the 5×5 scenario. -/
def inA5 (x y : ℕ) : Bool := decide (1 ≤ x ∧ x ≤ 3 ∧ 1 ≤ y ∧ y ≤ 3)

/-- 5×5 image: color A on the centered 3×3 region, B around it. -/
def img5 : NImg := ⟨5, 5, fun x y => if inA5 x y then pxA else pxB⟩

/-- The fillability grid of the 5×5 scenario, evaluated: after
clamping, exactly the A-region is fillable. -/
def fill5 : ℤ → ℤ → Bool := fun px py =>
  inA5 (clampInt px 0 4).toNat (clampInt py 0 4).toNat

/-- 3×1 row `[A, B, A]`. -/
def img3 : NImg := ⟨3, 1, fun x _ => if x = 1 then pxB else pxA⟩

/-! ## Theorems -/

theorem clampInt_mem (v lo hi : ℤ) (h : lo ≤ hi) :
    lo ≤ clampInt v lo hi ∧ clampInt v lo hi ≤ hi := by
  unfold clampInt
  split <;> [omega; (split <;> omega)]

theorem goByte_eq_of_lt (l : List ℕ) (i : ℤ) (h0 : 0 ≤ i)
    (h1 : i.toNat < l.length) : goByte l i = some (l.getD i.toNat 0) := by
  unfold goByte
  rw [dif_pos ⟨h0, h1⟩, List.getD_eq_getElem l 0 h1]
  rfl
/-- C5 (amended): on a non-empty well-sized buffer, `samplePixelClamped`
clamps the caller's coordinates into `[0,w-1] × [0,h-1]` and returns
(without any out-of-range byte access, hence `some`) exactly the pixel
stored at the clamped coordinate. -/
theorem samplePixelClamped_safe (img : NBuf) (hw : 0 < img.w)
    (hh : 0 < img.h) (hlen : img.pix.length = 4 * img.w * img.h)
    (x y : ℤ) :
    0 ≤ clampInt x 0 ((img.w : ℤ) - 1) ∧
    clampInt x 0 ((img.w : ℤ) - 1) ≤ (img.w : ℤ) - 1 ∧
    0 ≤ clampInt y 0 ((img.h : ℤ) - 1) ∧
    clampInt y 0 ((img.h : ℤ) - 1) ≤ (img.h : ℤ) - 1 ∧
    samplePixelClamped img x y =
      some (pixelAtB img (clampInt x 0 ((img.w : ℤ) - 1)).toNat
        (clampInt y 0 ((img.h : ℤ) - 1)).toNat) := by
  have hwx : (0 : ℤ) ≤ (img.w : ℤ) - 1 := by
    have : (1 : ℤ) ≤ (img.w : ℤ) := by exact_mod_cast hw
    omega
  have hhy : (0 : ℤ) ≤ (img.h : ℤ) - 1 := by
    have : (1 : ℤ) ≤ (img.h : ℤ) := by exact_mod_cast hh
    omega
  obtain ⟨hcx0, hcx1⟩ := clampInt_mem x 0 ((img.w : ℤ) - 1) hwx
  obtain ⟨hcy0, hcy1⟩ := clampInt_mem y 0 ((img.h : ℤ) - 1) hhy
  refine ⟨hcx0, hcx1, hcy0, hcy1, ?_⟩
  set cx := clampInt x 0 ((img.w : ℤ) - 1) with hcx
  set cy := clampInt y 0 ((img.h : ℤ) - 1) with hcy
  have haxw : cx.toNat < img.w := by omega
  have hayh : cy.toNat < img.h := by omega
  have hlen2 : img.pix.length = 4 * (img.w * img.h) := by rw [hlen]; ring
  set N := 4 * (cy.toNat * img.w + cx.toNat) with hN
  have hxa : (cx.toNat : ℤ) = cx := Int.toNat_of_nonneg hcx0
  have hya : (cy.toNat : ℤ) = cy := Int.toNat_of_nonneg hcy0
  have hoff : pixOffset img cx cy = (N : ℤ) := by
    unfold pixOffset
    rw [hN]
    push_cast
    rw [hxa, hya]
    ring
  have hN3 : N + 3 < img.pix.length := by
    rw [hlen2, hN]
    have h1 : cy.toNat * img.w + cx.toNat + 1 ≤ img.w * img.h := by
      calc cy.toNat * img.w + cx.toNat + 1 ≤ cy.toNat * img.w + img.w := by omega
      _ = (cy.toNat + 1) * img.w := by ring
      _ ≤ img.h * img.w := Nat.mul_le_mul_right _ (by omega)
      _ = img.w * img.h := Nat.mul_comm _ _
    omega
  have gk : ∀ k : ℕ, k ≤ 3 → goByte img.pix ((N : ℤ) + (k : ℤ)) =
      some (img.pix.getD (N + k) 0) := by
    intro k hk3
    have hcast : ((N : ℤ) + (k : ℤ)) = ((N + k : ℕ) : ℤ) := by push_cast; ring
    rw [hcast, goByte_eq_of_lt _ _ (Int.natCast_nonneg _)
      (by rw [Int.toNat_natCast]; omega)]
    rw [Int.toNat_natCast]
  have g0 : goByte img.pix (N : ℤ) = some (img.pix.getD N 0) := by
    simpa using gk 0 (by omega)
  have g1 : goByte img.pix ((N : ℤ) + 1) = some (img.pix.getD (N + 1) 0) := by
    simpa using gk 1 (by omega)
  have g2 : goByte img.pix ((N : ℤ) + 2) = some (img.pix.getD (N + 2) 0) := by
    simpa using gk 2 (by omega)
  have g3 : goByte img.pix ((N : ℤ) + 3) = some (img.pix.getD (N + 3) 0) := by
    simpa using gk 3 (by omega)
  simp only [samplePixelClamped, ← hcx, ← hcy, hoff, g0, g1, g2, g3]
  rfl

/-- C5 witness: the amended theorem applied to a concrete 2×1 buffer
and far out-of-range coordinates. -/
theorem samplePixelClamped_safe_witness :
    samplePixelClamped ⟨2, 1, [10, 20, 30, 40, 50, 60, 70, 80]⟩ 99 (-7) =
      some (pixelAtB ⟨2, 1, [10, 20, 30, 40, 50, 60, 70, 80]⟩
        (clampInt 99 0 ((2 : ℤ) - 1)).toNat (clampInt (-7) 0 ((1 : ℤ) - 1)).toNat) :=
  (samplePixelClamped_safe ⟨2, 1, [10, 20, 30, 40, 50, 60, 70, 80]⟩
    (by decide) (by decide) (by decide) 99 (-7)).2.2.2.2

/-- C5 counterexample: on the empty (0×0) buffer the clamped
coordinate is `-1` and the computed offset is out of range, so the read
fails (in Go: an index-out-of-range panic) — the claim's "no
out-of-bounds access [for every buffer]" is false. -/
theorem samplePixelClamped_empty_oob :
    samplePixelClamped ⟨0, 0, []⟩ 0 0 = none := by decide
/-- C6: `AutoOrient` performs, for each EXIF code 1..8, exactly the
orientation transform the spec names (identity, flip-horizontal,
rotate-180, flip-vertical, transpose, rotate-90-CW, transverse,
rotate-90-CCW), and composing with the inverse transform (built from the
engine's own primitives) restores the original pixel data exactly. -/
theorem autoOrient_exif_roundtrip (img : NImg) :
    (AutoOrient img 1 = img ∧
     ExtEq (AutoOrient img 2) (specFlipHorizontal img) ∧
     ExtEq (AutoOrient img 3) (specRotate180 img) ∧
     ExtEq (AutoOrient img 4) (specFlipVertical img) ∧
     ExtEq (AutoOrient img 5) (specTranspose img) ∧
     ExtEq (AutoOrient img 6) (specRotate90CW img) ∧
     ExtEq (AutoOrient img 7) (specTransverse img) ∧
     ExtEq (AutoOrient img 8) (specRotate90CCW img)) ∧
    (ExtEq (FlopNRGBA (AutoOrient img 2)) img ∧
     ExtEq (Rotate180NRGBA (AutoOrient img 3)) img ∧
     ExtEq (FlipNRGBA (AutoOrient img 4)) img ∧
     ExtEq (FlopNRGBA (ToNRGBA (Rotate90CWNRGBA (AutoOrient img 5)))) img ∧
     ExtEq (Rotate90CCWNRGBA (AutoOrient img 6)) img ∧
     ExtEq (FlopNRGBA (ToNRGBA (Rotate90CCWNRGBA (AutoOrient img 7)))) img ∧
     ExtEq (Rotate90CWNRGBA (AutoOrient img 8)) img) := by
  have hao : ∀ k : ℤ, 2 ≤ k → k ≤ 8 → AutoOrient img k =
      (if k = 2 then FlopNRGBA (ToNRGBA img)
       else if k = 3 then Rotate180NRGBA (ToNRGBA img)
       else if k = 4 then FlipNRGBA (ToNRGBA img)
       else if k = 5 then FlopNRGBA (ToNRGBA (Rotate90CWNRGBA (ToNRGBA img)))
       else if k = 6 then Rotate90CWNRGBA (ToNRGBA img)
       else if k = 7 then FlopNRGBA (ToNRGBA (Rotate90CCWNRGBA (ToNRGBA img)))
       else if k = 8 then Rotate90CCWNRGBA (ToNRGBA img)
       else img) := by
    intro k h2 h8
    unfold AutoOrient
    rw [if_neg (by omega)]
  constructor
  · refine ⟨?_, ?_, ?_, ?_, ?_, ?_, ?_, ?_⟩
    · unfold AutoOrient
      rw [if_pos (by omega)]
    · rw [hao 2 (by omega) (by omega)]
      norm_num
      exact ⟨rfl, rfl, fun x y _ _ => rfl⟩
    · rw [hao 3 (by omega) (by omega)]
      norm_num
      exact ⟨rfl, rfl, fun x y _ _ => rfl⟩
    · rw [hao 4 (by omega) (by omega)]
      norm_num
      exact ⟨rfl, rfl, fun x y _ _ => rfl⟩
    · rw [hao 5 (by omega) (by omega)]
      norm_num
      refine ⟨rfl, rfl, fun x y hx hy => ?_⟩
      simp only [FlopNRGBA, ToNRGBA, Rotate90CWNRGBA, specTranspose]
      have hx1 : img.h - 1 - (img.h - 1 - x) = x := by
        simp only [FlopNRGBA, ToNRGBA, Rotate90CWNRGBA] at hx
        omega
      rw [hx1]
    · rw [hao 6 (by omega) (by omega)]
      norm_num
      exact ⟨rfl, rfl, fun x y _ _ => rfl⟩
    · rw [hao 7 (by omega) (by omega)]
      norm_num
      exact ⟨rfl, rfl, fun x y _ _ => rfl⟩
    · rw [hao 8 (by omega) (by omega)]
      norm_num
      exact ⟨rfl, rfl, fun x y _ _ => rfl⟩
  · refine ⟨?_, ?_, ?_, ?_, ?_, ?_, ?_⟩
    · rw [hao 2 (by omega) (by omega)]
      norm_num
      refine ⟨rfl, rfl, fun x y hx hy => ?_⟩
      simp only [FlopNRGBA, ToNRGBA] at hx hy ⊢
      have h1 : img.w - 1 - (img.w - 1 - x) = x := by omega
      rw [h1]
    · rw [hao 3 (by omega) (by omega)]
      norm_num
      refine ⟨rfl, rfl, fun x y hx hy => ?_⟩
      simp only [Rotate180NRGBA, ToNRGBA] at hx hy ⊢
      have h1 : img.w - 1 - (img.w - 1 - x) = x := by omega
      have h2 : img.h - 1 - (img.h - 1 - y) = y := by omega
      rw [h1, h2]
    · rw [hao 4 (by omega) (by omega)]
      norm_num
      refine ⟨rfl, rfl, fun x y hx hy => ?_⟩
      simp only [FlipNRGBA, ToNRGBA] at hx hy ⊢
      have h2 : img.h - 1 - (img.h - 1 - y) = y := by omega
      rw [h2]
    · rw [hao 5 (by omega) (by omega)]
      norm_num
      refine ⟨rfl, rfl, fun x y hx hy => ?_⟩
      simp only [FlopNRGBA, ToNRGBA, Rotate90CWNRGBA] at hx hy ⊢
      have h1 : img.w - 1 - (img.w - 1 - x) = x := by omega
      have h2 : img.h - 1 - (img.h - 1 - y) = y := by omega
      rw [h1, h2]
    · rw [hao 6 (by omega) (by omega)]
      norm_num
      refine ⟨rfl, rfl, fun x y hx hy => ?_⟩
      simp only [Rotate90CCWNRGBA, Rotate90CWNRGBA, ToNRGBA] at hx hy ⊢
      have h2 : img.h - 1 - (img.h - 1 - y) = y := by omega
      rw [h2]
    · rw [hao 7 (by omega) (by omega)]
      norm_num
      refine ⟨rfl, rfl, fun x y hx hy => ?_⟩
      simp only [FlopNRGBA, ToNRGBA, Rotate90CCWNRGBA] at hx hy ⊢
      have h1 : img.w - 1 - (img.w - 1 - x) = x := by omega
      have h2 : img.h - 1 - (img.h - 1 - y) = y := by omega
      rw [h1, h2]
    · rw [hao 8 (by omega) (by omega)]
      norm_num
      refine ⟨rfl, rfl, fun x y hx hy => ?_⟩
      simp only [Rotate90CWNRGBA, Rotate90CCWNRGBA, ToNRGBA] at hx hy ⊢
      have h1 : img.w - 1 - (img.w - 1 - x) = x := by omega
      rw [h1]
/-- C6 witness: the theorem applied to the concrete 2×3 image; in
particular code 6 (rotate 90 CW) followed by rotate 90 CCW restores it. -/
theorem autoOrient_exif_roundtrip_witness :
    ExtEq (Rotate90CCWNRGBA (AutoOrient img23 6)) img23 :=
  (autoOrient_exif_roundtrip img23).2.2.2.2.2.1
theorem resampleLanczos_w (src : NImg) (dstW dstH : ℤ) (a : ℝ) :
    (ResampleLanczos src dstW dstH a).w = dstW.natAbs := by
  unfold ResampleLanczos
  split <;> rfl

theorem resampleLanczos_h (src : NImg) (dstW dstH : ℤ) (a : ℝ) :
    (ResampleLanczos src dstW dstH a).h = dstH.natAbs := by
  unfold ResampleLanczos
  split <;> rfl

/-- C4 (amended): for non-negative requested dimensions the output
buffer is exactly `dstW × dstH`, and a zero requested dimension yields
an empty buffer. -/
theorem resampleLanczos_dims (src : NImg) (dstW dstH : ℤ) (a : ℝ)
    (hW : 0 ≤ dstW) (hH : 0 ≤ dstH) :
    ((ResampleLanczos src dstW dstH a).w : ℤ) = dstW ∧
    ((ResampleLanczos src dstW dstH a).h : ℤ) = dstH ∧
    (dstW = 0 ∨ dstH = 0 →
      (ResampleLanczos src dstW dstH a).w *
        (ResampleLanczos src dstW dstH a).h = 0) := by
  rw [resampleLanczos_w, resampleLanczos_h]
  refine ⟨?_, ?_, ?_⟩
  · omega
  · omega
  · rintro (h0 | h0) <;> simp [h0]

/-- A concrete 1×1 image used by witnesses and counterexamples. -/
def img11 : NImg := ⟨1, 1, fun _ _ => ⟨10, 20, 30, 255⟩⟩

/-- C4 witness: the amended theorem applied at a concrete request. -/
theorem resampleLanczos_dims_witness :
    ((ResampleLanczos img11 3 2 3).w : ℤ) = 3 ∧
    ((ResampleLanczos img11 3 2 3).h : ℤ) = 2 ∧
    ((3 : ℤ) = 0 ∨ (2 : ℤ) = 0 →
      (ResampleLanczos img11 3 2 3).w * (ResampleLanczos img11 3 2 3).h = 0) :=
  resampleLanczos_dims img11 3 2 3 (by norm_num) (by norm_num)

/-- C4 counterexample: with the (integer) argument `dstW = -1` the
returned buffer is 1×1 — `image.Rect` canonicalisation makes the width
`|dstW|`, not `dstW` — so "dimensions exactly dstW × dstH for all
integer arguments" is false. -/
theorem resampleLanczos_neg_dim :
    ((ResampleLanczos img11 (-1) 1 3).w : ℤ) = 1 ∧ ((-1 : ℤ) ≠ 1) := by
  rw [resampleLanczos_w]
  norm_num
/-- C9: calling the dispatcher's `resize` with an argument list that is
not exactly 2 long, or whose width does not parse as an integer, yields
a descriptive argument error and no buffer (and, the model being a pure
function of a fresh copy, no mutation of the input). -/
theorem resize_arg_validation (img : NImg) (args : List String) :
    (args.length ≠ 2 →
      resizeCommand img args =
        Except.error "resize requires 2 args: width height") ∧
    (∀ ws hs : String, args = [ws, hs] → goAtoi ws = none →
      resizeCommand img args = Except.error "invalid width") := by
  constructor
  · intro h
    unfold resizeCommand
    rw [if_pos h]
  · intro ws hs hargs hparse
    subst hargs
    unfold resizeCommand
    rw [if_neg (by simp)]
    simp [hparse]

/-- C9 witness: one argument, and a non-numeric width, both rejected. -/
theorem resize_arg_validation_witness :
    resizeCommand img11 ["10"] =
      Except.error "resize requires 2 args: width height" ∧
    resizeCommand img11 ["abc", "5"] = Except.error "invalid width" :=
  ⟨(resize_arg_validation img11 ["10"]).1 (by decide),
   (resize_arg_validation img11 ["abc", "5"]).2 "abc" "5" rfl (by decide)⟩

theorem floatToByte_natCast {n : ℕ} (h : n ≤ 255) : floatToByte (n : ℝ) = n := by
  unfold floatToByte clampFloatToUint8
  rw [if_neg (not_lt.mpr (Nat.cast_nonneg n)),
    if_neg (not_lt.mpr (by exact_mod_cast h))]
  exact Nat.floor_natCast n

theorem floatToByte_of_eq {v : ℝ} {n : ℕ} (h : v = (n : ℝ)) (hn : n ≤ 255) :
    floatToByte v = n := by
  rw [h]
  exact floatToByte_natCast hn

theorem blendFor_over : blendFor "OVER" = fun sr _ => sr := rfl

theorem composite_pix_outside (dst src : NImg) (op : String) (xoff yoff : ℤ)
    (x y : ℕ) (h : ¬ inFootprint dst src xoff yoff x y) :
    (Composite dst src op xoff yoff).pix x y = dst.pix x y := by
  unfold Composite
  split
  · rfl
  · dsimp only
    rw [if_neg h]

theorem composite_pix_inside (dst src : NImg) (op : String) (xoff yoff : ℤ)
    (x y : ℕ) (h : inFootprint dst src xoff yoff x y) :
    (Composite dst src op xoff yoff).pix x y =
      compositePix (blendFor op)
        (src.pix ((x : ℤ) - xoff).toNat ((y : ℤ) - yoff).toNat)
        (dst.pix x y) := by
  obtain ⟨h1, h2, h3, h4⟩ := h
  unfold Composite
  split
  · rename_i hemp
    exfalso
    rcases hemp with h5 | h5 <;> omega
  · dsimp only
    rw [if_pos ⟨h1, h2, h3, h4⟩]

/-- Half-transparent blue over opaque red: the red channel of the (1×1)
destination buffer becomes 127 after the call. -/
theorem composite_red_blue_r :
    ((Composite dstRed srcBlue "OVER" 0 0).pix 0 0).r = 127 := by
  rw [composite_pix_inside dstRed srcBlue "OVER" 0 0 0 0 (by decide),
    blendFor_over]
  unfold compositePix
  dsimp only [srcBlue, dstRed]
  exact floatToByte_of_eq (by norm_num) (by norm_num)

/-- C1 (amended): `Composite` is an exception to the no-mutation rule:
it blends into the destination buffer it was passed.  The mutation is
confined to the overlap footprint — outside it the post-call destination
bytes equal the pre-call bytes — and inside the footprint bytes really
change (concretely, half-transparent blue over opaque red turns the red
byte from 255 into 127). -/
theorem composite_mutates_destination :
    (∀ (dst src : NImg) (op : String) (xoff yoff : ℤ) (x y : ℕ),
      ¬ inFootprint dst src xoff yoff x y →
      (Composite dst src op xoff yoff).pix x y = dst.pix x y) ∧
    ((Composite dstRed srcBlue "OVER" 0 0).pix 0 0).r = 127 ∧
    (dstRed.pix 0 0).r = 255 :=
  ⟨fun dst src op xoff yoff x y h => composite_pix_outside dst src op xoff yoff x y h,
   composite_red_blue_r, rfl⟩

/-- C1 witness: the amended theorem at a concrete out-of-footprint pixel
(2×1 destination, 1×1 source at offset 0: pixel (1,0) is untouched)
together with the concrete in-footprint mutation. -/
theorem composite_mutates_destination_witness :
    (Composite dstRed2 srcBlue "OVER" 0 0).pix 1 0 = dstRed2.pix 1 0 ∧
    ((Composite dstRed srcBlue "OVER" 0 0).pix 0 0).r = 127 :=
  ⟨composite_mutates_destination.1 dstRed2 srcBlue "OVER" 0 0 1 0 (by decide),
   composite_mutates_destination.2.1⟩

/-- C1 counterexample: the destination buffer passed to `Composite`
does not keep its pre-call pixel bytes — at the concrete red/blue input
the pixel under the footprint changes, so "no operation mutates its
input buffer in place (including Composite's destination)" is false. -/
theorem composite_dst_not_pristine :
    ¬ (∀ x y : ℕ,
      (Composite dstRed srcBlue "OVER" 0 0).pix x y = dstRed.pix x y) := by
  intro hall
  have h := congrArg Px.r (hall 0 0)
  rw [composite_red_blue_r] at h
  exact absurd h (by decide)

/-- C8 (amended): pixels outside the source's overlap footprint are
left byte-for-byte untouched; pixels inside it are replaced by the
quantised alpha blend of the source over the destination — which
strictly changes the pixel for suitably different colors (blue over
red), though not when the blend quantises back to the original bytes. -/
theorem composite_footprint_effect :
    (∀ (dst src : NImg) (op : String) (xoff yoff : ℤ) (x y : ℕ),
      ¬ inFootprint dst src xoff yoff x y →
      (Composite dst src op xoff yoff).pix x y = dst.pix x y) ∧
    (∀ (dst src : NImg) (op : String) (xoff yoff : ℤ) (x y : ℕ),
      inFootprint dst src xoff yoff x y →
      (Composite dst src op xoff yoff).pix x y =
        compositePix (blendFor op)
          (src.pix ((x : ℤ) - xoff).toNat ((y : ℤ) - yoff).toNat)
          (dst.pix x y)) ∧
    ((Composite dstRed srcBlue "OVER" 0 0).pix 0 0).r = 127 ∧
    (dstRed.pix 0 0).r = 255 ∧ (srcBlue.pix 0 0).a = 128 :=
  ⟨fun dst src op xoff yoff x y h => composite_pix_outside dst src op xoff yoff x y h,
   fun dst src op xoff yoff x y h => composite_pix_inside dst src op xoff yoff x y h,
   composite_red_blue_r, rfl, rfl⟩

/-- C8 witness: the amended theorem at concrete pixels — outside the
footprint (2×1 destination, 1×1 source, pixel (1,0)) the bytes are kept;
inside it the red byte becomes 127. -/
theorem composite_footprint_effect_witness :
    (Composite dstRed2 srcBlue "OVER" 0 0).pix 1 0 = dstRed2.pix 1 0 ∧
    (Composite dstRed srcBlue "OVER" 0 0).pix 0 0 =
      compositePix (blendFor "OVER") (srcBlue.pix 0 0) (dstRed.pix 0 0) ∧
    ((Composite dstRed srcBlue "OVER" 0 0).pix 0 0).r = 127 :=
  ⟨composite_footprint_effect.1 dstRed2 srcBlue "OVER" 0 0 1 0 (by decide),
   composite_footprint_effect.2.1 dstRed srcBlue "OVER" 0 0 0 0 (by decide),
   composite_footprint_effect.2.2.1⟩

theorem labDistanceSq_self (c : Px) : labDistanceSq c c = 0 := by
  unfold labDistanceSq deltaESq
  ring

/-- The Lab distance between the two scenario colors is strictly
positive (both colors take the rational branches of the conversion, so
this is exact rational arithmetic). -/
theorem labDistanceSq_BA_pos : 0 < labDistanceSq pxB pxA := by
  unfold labDistanceSq deltaESq rgbToLab xyzToLab labF linearToXyz srgbToLinear pxA pxB
  norm_num

theorem ffMatches_pxA : ffMatches false px0000 pxA 0 pxA = true := by
  unfold ffMatches
  simp [labDistanceSq_self]

theorem ffMatches_pxB : ffMatches false px0000 pxA 0 pxB = false := by
  unfold ffMatches
  simp [not_le.mpr labDistanceSq_BA_pos]

theorem huse0000 : (!(px0000.r == 0 && px0000.g == 0 && px0000.b == 0 &&
    px0000.a == 0)) = false := by decide

/-- The fillability grid of the 5×5 scenario evaluates to `fill5`. -/
theorem ffFillable_img5 :
    ffFillable img5 false px0000 (sampleClamped img5 2 2) ((0 : ℝ) * 0) = fill5 := by
  have hs : sampleClamped img5 2 2 = pxA := by decide
  rw [hs, show ((0 : ℝ) * 0) = 0 from by norm_num]
  funext px py
  unfold ffFillable ffIsBoundary fill5
  simp only [Bool.false_eq_true, if_false, Bool.not_false, Bool.true_and]
  unfold sampleClamped
  have hw : (img5.w : ℤ) - 1 = 4 := by decide
  have hh : (img5.h : ℤ) - 1 = 4 := by decide
  rw [hw, hh]
  cases hA : inA5 (clampInt px 0 4).toNat (clampInt py 0 4).toNat
  · rw [show img5.pix (clampInt px 0 4).toNat (clampInt py 0 4).toNat = pxB by
      simp [img5, hA]]
    rw [ffMatches_pxB]
  · rw [show img5.pix (clampInt px 0 4).toNat (clampInt py 0 4).toNat = pxA by
      simp [img5, hA]]
    rw [ffMatches_pxA]

set_option maxHeartbeats 1000000 in
/-- The discovered 5×5 span-fill mask is exactly the A-region (kernel
evaluation of the computable loop). -/
theorem mask5_eval :
    spanFillLoop 5 5 fill5 ((5 * 5 + 1) * (2 * 5 + 6) + 8) [(2, 2)]
      (List.replicate 25 false) =
    (List.range 25).map (fun i => inA5 (i % 5) (i / 5)) := by decide

/-- The full `ffMask` of the 5×5 scenario. -/
theorem ffMask_img5 :
    ffMask img5 0 px0000 2 2 false =
      (List.range 25).map (fun i => inA5 (i % 5) (i / 5)) := by
  unfold ffMask
  dsimp only
  rw [huse0000]
  simp only [Bool.not_false, Bool.and_false, Bool.false_eq_true, if_false]
  rw [show (if (img5.w : ℤ) ≤ (if (2 : ℤ) < 0 then 0 else 2) then (img5.w : ℤ) - 1
      else (if (2 : ℤ) < 0 then 0 else 2)) = 2 from by decide,
    show (if (img5.h : ℤ) ≤ (if (2 : ℤ) < 0 then 0 else 2) then (img5.h : ℤ) - 1
      else (if (2 : ℤ) < 0 then 0 else 2)) = 2 from by decide,
    show (if (0 : ℝ) < 0 then 0 else (0 : ℝ)) = 0 from by norm_num,
    show (if (0 : ℝ) > 200 then 200 else (0 : ℝ)) = 0 from by norm_num,
    ffFillable_img5]
  exact mask5_eval

theorem compositeFill_white (p : Px) : compositeFill pxWhite p = pxWhite := by
  unfold compositeFill
  dsimp only [pxWhite]
  rw [if_pos (show ((255 : ℕ) : ℝ) / 255 + (p.a : ℝ) / 255 *
    (1 - ((255 : ℕ) : ℝ) / 255) > 0 from by norm_num)]
  have e1 : ∀ c : ℕ, (((255 : ℕ) : ℝ) * (((255 : ℕ) : ℝ) / 255) +
      (c : ℝ) * ((p.a : ℝ) / 255) * (1 - ((255 : ℕ) : ℝ) / 255)) /
      (((255 : ℕ) : ℝ) / 255 + (p.a : ℝ) / 255 * (1 - ((255 : ℕ) : ℝ) / 255)) =
      ((255 : ℕ) : ℝ) := by
    intro c
    norm_num
  simp only [Px.mk.injEq]
  exact ⟨floatToByte_of_eq (e1 p.r) (by norm_num),
    floatToByte_of_eq (e1 p.g) (by norm_num),
    floatToByte_of_eq (e1 p.b) (by norm_num),
    floatToByte_of_eq (by norm_num) (by norm_num)⟩

/-- The `ffMask` of the 3×1 inverted scenario: only the middle bit is
set (global matching, then the invert flip). -/
theorem ffMask_img3 :
    ffMask img3 0 px0000 0 0 true = [false, true, false] := by
  unfold ffMask
  dsimp only
  rw [huse0000]
  simp only [Bool.not_false, Bool.true_and, if_true]
  rw [show (if (img3.w : ℤ) ≤ (if (0 : ℤ) < 0 then 0 else 0) then (img3.w : ℤ) - 1
      else (if (0 : ℤ) < 0 then 0 else 0)) = 0 from by decide,
    show (if (img3.h : ℤ) ≤ (if (0 : ℤ) < 0 then 0 else 0) then (img3.h : ℤ) - 1
      else (if (0 : ℤ) < 0 then 0 else 0)) = 0 from by decide,
    show sampleClamped img3 0 0 = pxA from by decide,
    show (if (0 : ℝ) < 0 then 0 else (0 : ℝ)) = 0 from by norm_num,
    show (if (0 : ℝ) > 200 then 200 else (0 : ℝ)) = 0 from by norm_num]
  rw [show List.range (img3.w * img3.h) = [0, 1, 2] from by decide]
  simp only [List.map_cons, List.map_nil]
  rw [show sampleClamped img3 (((0 : ℕ) % img3.w : ℕ) : ℤ) (((0 : ℕ) / img3.w : ℕ) : ℤ) = pxA
      from by decide,
    show sampleClamped img3 (((1 : ℕ) % img3.w : ℕ) : ℤ) (((1 : ℕ) / img3.w : ℕ) : ℤ) = pxB
      from by decide,
    show sampleClamped img3 (((2 : ℕ) % img3.w : ℕ) : ℤ) (((2 : ℕ) / img3.w : ℕ) : ℤ) = pxA
      from by decide,
    show ((0 : ℝ) * 0) = 0 from by norm_num]
  rw [ffMatches_pxA, ffMatches_pxB]
  rfl

/-- C7: flood-filling the 5×5 two-color image from the center with zero
fuzz and no border changes exactly the centered 3×3 region, and on the
row `[A,B,A]` with `invert` and the seed on A only the middle pixel
changes (border-less inverted matching is global, not connectivity
based). -/
theorem floodfill_region_effects :
    (∀ x y : ℕ, x < 5 → y < 5 →
      (((FloodfillPaint img5 pxWhite 0 px0000 2 2 false).pix x y ≠ img5.pix x y)
        ↔ inA5 x y = true)) ∧
    (∀ x : ℕ, x < 3 →
      (((FloodfillPaint img3 pxWhite 0 px0000 0 0 true).pix x 0 ≠ img3.pix x 0)
        ↔ x = 1)) := by
  constructor
  · intro x y hx hy
    unfold FloodfillPaint
    dsimp only
    rw [ffMask_img5]
    have hidx : getMask ((List.range 25).map (fun i => inA5 (i % 5) (i / 5)))
        (idxOf img5.w (x : ℤ) (y : ℤ)) = inA5 x y := by
      unfold getMask idxOf
      have h1 : (((y : ℤ)) * (img5.w : ℤ) + (x : ℤ)).toNat = y * 5 + x := by
        show (((y : ℤ)) * ((5 : ℕ) : ℤ) + (x : ℤ)).toNat = y * 5 + x
        push_cast
        omega
      rw [h1]
      have h2 : y * 5 + x < 25 := by omega
      rw [List.getD_eq_getElem _ _ (by simpa using h2)]
      simp only [List.getElem_map, List.getElem_range]
      rw [show (y * 5 + x) % 5 = x from by omega,
        show (y * 5 + x) / 5 = y from by omega]
    rw [hidx]
    cases hA : inA5 x y
    · simp only [Bool.false_eq_true, if_false]
      simp
    · simp only [if_true]
      rw [compositeFill_white]
      have himg : img5.pix x y = pxA := by simp [img5, hA]
      rw [himg]
      simp only [iff_true]
      decide
  · intro x hx
    unfold FloodfillPaint
    dsimp only
    rw [ffMask_img3]
    have hidx : getMask [false, true, false] (idxOf img3.w (x : ℤ) ((0 : ℕ) : ℤ)) =
        decide (x = 1) := by
      unfold getMask idxOf
      have h1 : (((0 : ℕ) : ℤ) * (img3.w : ℤ) + (x : ℤ)).toNat = x := by
        push_cast
        omega
      rw [h1]
      interval_cases x <;> rfl
    rw [hidx]
    interval_cases x
    · simp
    · simp only [decide_True, if_true]
      rw [compositeFill_white]
      have himg : img3.pix 1 0 = pxB := by simp [img3]
      rw [himg]
      simp only [iff_true]
      decide
    · simp only [show decide ((2 : ℕ) = 1) = false from rfl, if_false]
      simp

/-- C7 witness: the center pixel of the 5×5 scenario does change, and
the middle pixel of the `[A,B,A]` inverted scenario does change. -/
theorem floodfill_region_effects_witness :
    ((FloodfillPaint img5 pxWhite 0 px0000 2 2 false).pix 2 2 ≠ img5.pix 2 2) ∧
    ((FloodfillPaint img3 pxWhite 0 px0000 0 0 true).pix 1 0 ≠ img3.pix 1 0) :=
  ⟨(floodfill_region_effects.1 2 2 (by decide) (by decide)).mpr (by decide),
   (floodfill_region_effects.2 1 (by decide)).mpr rfl⟩

/-- C2 (amended): `percentage ≤ 0` returns the input image itself
(identity); a fully transparent pixel passes through `sepiaPix`
unchanged at every percentage; and the Lab-space blend step moves a
pixel's Lab strictly closer (smaller ΔE²) to the target whenever the
effective local blend factor is in `(0,1]` and the pixel's Lab differs
from the target. -/
theorem sepia_percentage_behaviour :
    (∀ (src : NImg) (mc ms ht hs cv pct : ℝ), pct ≤ 0 →
      SepiaTone src pct mc ms ht hs cv = src) ∧
    (∀ (pct mc ms ht hs cv : ℝ) (tl : Lab) (p : Px), p.a = 0 →
      sepiaPix pct mc ms ht hs cv tl p = p) ∧
    (∀ (pLocal : ℝ) (u t : Lab), 0 < pLocal → pLocal ≤ 1 → u ≠ t →
      deltaESq (sepiaBlend pLocal u t) t < deltaESq u t) := by
  refine ⟨?_, ?_, ?_⟩
  · intro src mc ms ht hs cv pct h
    unfold SepiaTone
    rw [if_pos h]
  · intro pct mc ms ht hs cv tl p h
    unfold sepiaPix
    rw [if_pos h]
  · intro p u t hp0 hp1 hne
    have hblend : deltaESq (sepiaBlend p u t) t = (1 - p) ^ 2 * deltaESq u t := by
      unfold deltaESq sepiaBlend
      dsimp only
      ring
    have hDpos : 0 < deltaESq u t := by
      have hcomp : ¬ (u.l = t.l ∧ u.a = t.a ∧ u.b = t.b) := by
        rintro ⟨ha, hb, hc⟩
        apply hne
        cases u
        cases t
        simp_all
      by_contra hle
      push_neg at hle
      apply hcomp
      unfold deltaESq at hle
      have e1 : (u.l - t.l) * (u.l - t.l) = 0 := by
        nlinarith [mul_self_nonneg (u.l - t.l), mul_self_nonneg (u.a - t.a),
          mul_self_nonneg (u.b - t.b)]
      have e2 : (u.a - t.a) * (u.a - t.a) = 0 := by
        nlinarith [mul_self_nonneg (u.l - t.l), mul_self_nonneg (u.a - t.a),
          mul_self_nonneg (u.b - t.b)]
      have e3 : (u.b - t.b) * (u.b - t.b) = 0 := by
        nlinarith [mul_self_nonneg (u.l - t.l), mul_self_nonneg (u.a - t.a),
          mul_self_nonneg (u.b - t.b)]
      exact ⟨sub_eq_zero.mp (mul_self_eq_zero.mp e1),
        sub_eq_zero.mp (mul_self_eq_zero.mp e2),
        sub_eq_zero.mp (mul_self_eq_zero.mp e3)⟩
    rw [hblend]
    nlinarith [mul_pos hp0 hDpos,
      mul_nonneg (mul_nonneg hp0.le (sub_nonneg.mpr hp1)) hDpos.le]

/-- C2 witness: the amended theorem at concrete inputs — identity at
percentage 0, a concrete transparent pixel passed through, and a
concrete strict ΔE decrease of the blend. -/
theorem sepia_percentage_behaviour_witness :
    SepiaTone img11 0 50 20 80 10 0 = img11 ∧
    sepiaPix (1 / 2) 50 20 80 10 0 (sepiaLabOf sepiaTarget) ⟨10, 20, 30, 0⟩ =
      ⟨10, 20, 30, 0⟩ ∧
    deltaESq (sepiaBlend (1 / 2) ⟨0, 0, 0⟩ ⟨1, 0, 0⟩) ⟨1, 0, 0⟩ <
      deltaESq ⟨0, 0, 0⟩ ⟨1, 0, 0⟩ :=
  ⟨sepia_percentage_behaviour.1 img11 50 20 80 10 0 0 le_rfl,
   sepia_percentage_behaviour.2.1 (1 / 2) 50 20 80 10 0
     (sepiaLabOf sepiaTarget) ⟨10, 20, 30, 0⟩ rfl,
   sepia_percentage_behaviour.2.2 (1 / 2) ⟨0, 0, 0⟩ ⟨1, 0, 0⟩ (by norm_num)
     (by norm_num) (by norm_num [Lab.mk.injEq])⟩

/-- C2 counterexample: at the fully transparent pixel `(10,20,30,0)`
and `percentage = 1/2 ∈ (0,1)` the output pixel equals the input pixel,
so its Lab ΔE to the sepia target is unchanged — not strictly smaller
as the claim requires for any percentage in `(0,1)`. -/
theorem sepia_transparent_pixel_not_closer :
    (0 : ℝ) < 1 / 2 ∧ (1 : ℝ) / 2 < 1 ∧ (imgT.pix 0 0).a = 0 ∧
    (SepiaTone imgT (1 / 2) 50 20 80 10 0).pix 0 0 = imgT.pix 0 0 ∧
    ¬ (deltaESq (rgbToLab ((SepiaTone imgT (1 / 2) 50 20 80 10 0).pix 0 0))
        (sepiaLabOf sepiaTarget) <
       deltaESq (rgbToLab (imgT.pix 0 0)) (sepiaLabOf sepiaTarget)) := by
  have hpx : (SepiaTone imgT (1 / 2) 50 20 80 10 0).pix 0 0 = imgT.pix 0 0 := by
    unfold SepiaTone
    rw [if_neg (by norm_num)]
    dsimp only
    unfold sepiaPix
    rw [if_pos (show (imgT.pix 0 0).a = 0 from rfl)]
  refine ⟨by norm_num, by norm_num, rfl, hpx, ?_⟩
  rw [hpx]
  exact lt_irrefl _

/-- C8 counterexample: a half-transparent source whose color equals the
opaque destination leaves the pixel under the footprint byte-for-byte
unchanged, so "strictly changes every destination pixel inside the
footprint" is false. -/
theorem composite_equal_colors_unchanged :
    (srcGray.pix 0 0).a = 128 ∧ (dstGray.pix 0 0).a = 255 ∧
    inFootprint dstGray srcGray 0 0 0 0 ∧
    (Composite dstGray srcGray "OVER" 0 0).pix 0 0 = dstGray.pix 0 0 := by
  refine ⟨rfl, rfl, by decide, ?_⟩
  rw [composite_pix_inside dstGray srcGray "OVER" 0 0 0 0 (by decide),
    blendFor_over]
  unfold compositePix
  dsimp only [srcGray, dstGray]
  conv_rhs => rw [show (⟨100, 100, 100, 255⟩ : Px) =
    ⟨100, 100, 100, 255⟩ from rfl]
  simp only [Px.mk.injEq]
  refine ⟨?_, ?_, ?_, ?_⟩ <;> exact floatToByte_of_eq (by norm_num) (by norm_num)

theorem extEq_clone (src : NImg) : ExtEq (CloneNRGBA src) src :=
  ⟨rfl, rfl, fun _ _ _ _ => rfl⟩

theorem img11_wf : Wf img11 := by
  intro x y
  dsimp [img11, Wf]
  omega

theorem levelPix_alpha (bp g wp : ℝ) (p : Px) (h : p.a ≤ 255) :
    (levelPix bp g wp p).a = p.a := by
  unfold levelPix
  exact floatToByte_natCast h

theorem negatePix_alpha (og : Bool) (p : Px) : (negatePix og p).a = p.a := by
  unfold negatePix
  split
  · dsimp only
    split <;> rfl
  · rfl

theorem thresholdPix_alpha (th : ℝ) (pc : Bool) (p : Px) :
    (thresholdPix th pc p).a = p.a := by
  unfold thresholdPix
  split
  · rfl
  · dsimp only
    split <;> rfl

/-- C3: each of the four documented no-ops returns a pixel-for-pixel
clone of the input: `Gamma 1`, `Level` with `white ≤ black`, `AddNoise`
with `amount ≤ 0`, `MedianFilter` with `radius ≤ 0`. -/
theorem noop_clones (src : NImg) (hwf : Wf src) :
    ExtEq (Gamma src 1) src ∧
    (∀ bp g wp : ℝ, wp ≤ bp → ExtEq (Level src bp g wp) src) ∧
    (∀ (draws : ℕ → ℝ) (typ : String) (amount : ℝ) (seed : ℤ),
      amount ≤ 0 → ExtEq (AddNoise draws src typ amount seed) src) ∧
    (∀ radius : ℤ, radius ≤ 0 → ExtEq (MedianFilter src radius) src) := by
  refine ⟨?_, ?_, ?_, ?_⟩
  · unfold Gamma
    rw [if_neg (by norm_num)]
    refine ⟨rfl, rfl, fun x y _ _ => ?_⟩
    obtain ⟨h1, h2, h3, h4⟩ := hwf x y
    have key : ∀ n : ℕ, n ≤ 255 →
        floatToByte (Real.rpow ((n : ℝ) / 255) (1 / 1) * 255) = n := by
      intro n hn
      have e1 : Real.rpow ((n : ℝ) / 255) (1 / 1) = (n : ℝ) / 255 := by
        norm_num
      rw [e1, div_mul_cancel₀ _ (by norm_num : (255 : ℝ) ≠ 0)]
      exact floatToByte_natCast hn
    show (⟨_, _, _, _⟩ : Px) = src.pix x y
    conv_rhs => rw [show src.pix x y = ⟨(src.pix x y).r, (src.pix x y).g,
      (src.pix x y).b, (src.pix x y).a⟩ from rfl]
    simp only [Px.mk.injEq]
    exact ⟨key _ h1, key _ h2, key _ h3, trivial⟩
  · intro bp g wp hle
    unfold Level
    rw [if_pos hle]
    exact extEq_clone src
  · intro draws typ amount seed hle
    unfold AddNoise
    rw [if_pos hle]
    exact extEq_clone src
  · intro radius hle
    unfold MedianFilter
    rw [if_pos hle]
    exact extEq_clone src

/-- C3 witness: the theorem applied to the concrete 1×1 image with
concrete no-op parameters. -/
theorem noop_clones_witness :
    ExtEq (Gamma img11 1) img11 ∧ ExtEq (Level img11 100 2 50) img11 ∧
    ExtEq (AddNoise (fun _ => 0) img11 "GAUSSIAN" 0 7) img11 ∧
    ExtEq (MedianFilter img11 0) img11 :=
  ⟨(noop_clones img11 img11_wf).1,
   (noop_clones img11 img11_wf).2.1 100 2 50 (by norm_num),
   (noop_clones img11 img11_wf).2.2.1 (fun _ => 0) "GAUSSIAN" 0 7 (by norm_num),
   (noop_clones img11 img11_wf).2.2.2 0 (by norm_num)⟩

/-- C10: every tone transform of the levels module preserves the alpha
byte at every pixel (the in-range invariant is needed where alpha is
routed through the float clamp). -/
theorem tone_ops_preserve_alpha (src : NImg) (hwf : Wf src) :
    (∀ (bp g wp : ℝ) (x y : ℕ),
      ((Level src bp g wp).pix x y).a = (src.pix x y).a) ∧
    (∀ (g : ℝ) (x y : ℕ), ((Gamma src g).pix x y).a = (src.pix x y).a) ∧
    (∀ (og : Bool) (x y : ℕ), ((Negate src og).pix x y).a = (src.pix x y).a) ∧
    (∀ (t : ℝ) (pc : Bool) (x y : ℕ),
      ((Threshold src t pc).pix x y).a = (src.pix x y).a) ∧
    (∀ x y : ℕ, ((Normalize src).pix x y).a = (src.pix x y).a) ∧
    (∀ x y : ℕ, ((AutoGamma src).pix x y).a = (src.pix x y).a) := by
  refine ⟨?_, ?_, ?_, ?_, ?_, ?_⟩
  · intro bp g wp x y
    unfold Level
    split
    · rfl
    · exact levelPix_alpha bp g wp (src.pix x y) (hwf x y).2.2.2
  · intro g x y
    unfold Gamma
    split <;> rfl
  · intro og x y
    exact negatePix_alpha og (src.pix x y)
  · intro t pc x y
    exact thresholdPix_alpha _ pc (src.pix x y)
  · intro x y
    rfl
  · intro x y
    unfold AutoGamma
    dsimp only
    split
    · rfl
    · split <;> rfl

/-- C10 witness: alpha preservation at a concrete image and pixel for
each of the six operations. -/
theorem tone_ops_preserve_alpha_witness :
    ((Level img11 10 2 200).pix 0 0).a = (img11.pix 0 0).a ∧
    ((Gamma img11 2).pix 0 0).a = (img11.pix 0 0).a ∧
    ((Negate img11 true).pix 0 0).a = (img11.pix 0 0).a ∧
    ((Threshold img11 128 false).pix 0 0).a = (img11.pix 0 0).a ∧
    ((Normalize img11).pix 0 0).a = (img11.pix 0 0).a ∧
    ((AutoGamma img11).pix 0 0).a = (img11.pix 0 0).a :=
  ⟨(tone_ops_preserve_alpha img11 img11_wf).1 10 2 200 0 0,
   (tone_ops_preserve_alpha img11 img11_wf).2.1 2 0 0,
   (tone_ops_preserve_alpha img11 img11_wf).2.2.1 true 0 0,
   (tone_ops_preserve_alpha img11 img11_wf).2.2.2.1 128 false 0 0,
   (tone_ops_preserve_alpha img11 img11_wf).2.2.2.2.1 0 0,
   (tone_ops_preserve_alpha img11 img11_wf).2.2.2.2.2 0 0⟩

end Timp
